import Mathlib

/-!
Verification development for the query construction and execution pipeline of a
typed BigQuery table library (value codec, record schema, typestate query
builder, query executor, table facade).

The Rust sources are shallowly embedded: pure functions become Lean functions,
the `Result<T, Box<dyn Error>>` type becomes `RResult` carrying the error
message, panics (`todo!`, index out of bounds, `unwrap` on `None`) are modelled
as distinguished `RResult.err` values whose message starts with "panic", and
the typestate phantom parameters of the builder (which have no runtime
representation) are reified as plain data (`Option` client, `Option` starting
data, a `built` flag).
-/

/-- Rust `Result<A, Box<dyn Error>>` with the error rendered to a message
string, as the library produces it via `format!(...).into()`. -/
inductive RResult (A : Type) where
  | ok (a : A)
  | err (msg : String)
  deriving DecidableEq, Repr

namespace RResult

/-- Rust `?` operator / monadic bind on results. -/
def bind {A B : Type} : RResult A → (A → RResult B) → RResult B
  | .ok a, f => f a
  | .err m, _ => .err m

/-- Functorial map on the `ok` value. -/
def map {A B : Type} (f : A → B) : RResult A → RResult B
  | .ok a => .ok (f a)
  | .err m => .err m

/-- Rust `Result::is_ok`. -/
def isOk {A : Type} : RResult A → Bool
  | .ok _ => true
  | .err _ => false

end RResult

/-- A digit 0..9 rendered as its ASCII character, as decimal formatting does. -/
def digitAscii (d : Nat) : Char := Char.ofNat (48 + d)

/-- Numeric value of an ASCII digit character. -/
def asciiVal (c : Char) : Nat := c.toNat - 48

/-- ASCII decimal digit test, as used by numeric scanners. -/
def isDigitAscii (c : Char) : Bool := 48 ≤ c.toNat && c.toNat ≤ 57

/-- Little-endian decimal digits of a natural number (empty for 0); the fuel
argument makes the recursion structural. -/
def natDigitsAux : Nat → Nat → List Nat
  | 0, _ => []
  | _ + 1, 0 => []
  | f + 1, n + 1 => ((n + 1) % 10) :: natDigitsAux f ((n + 1) / 10)

/-- Little-endian decimal digits of a natural number (empty for 0). -/
def natDigits (n : Nat) : List Nat := natDigitsAux n n

/-- Big-endian decimal digit characters of `n` (empty for 0). -/
def natChars (n : Nat) : List Char := (natDigits n).reverse.map digitAscii

/-- Decimal rendering of `n` left-padded with zeros to width `w`; with `w = 1`
this is the ordinary decimal rendering (including `"0"` for zero). -/
def natCharsPad (w n : Nat) : List Char :=
  List.replicate (w - (natChars n).length) '0' ++ natChars n

/-- Decimal string of a natural number. -/
def natToString (n : Nat) : String := String.mk (natCharsPad 1 n)

/-- Decimal string of an integer, with a leading minus sign for negatives,
matching Rust integer `Display`/`Debug` and serde_json number rendering. -/
def intToString (n : Int) : String :=
  if n < 0 then String.mk ('-' :: natCharsPad 1 n.natAbs) else natToString n.natAbs

/-- Value of a big-endian list of decimal digits. -/
def digitsVal (l : List Nat) : Nat := l.foldl (fun a d => a * 10 + d) 0

/-- Value of a big-endian list of ASCII digit characters. -/
def charsVal (l : List Char) : Nat := digitsVal (l.map asciiVal)

-- Inversion lemmas: parsing back the decimal rendering gives the number.

theorem natDigitsAux_fuel (f : Nat) : ∀ g n : Nat, n ≤ f → n ≤ g →
    natDigitsAux f n = natDigitsAux g n := by
  induction f with
  | zero =>
    intro g n hf _
    interval_cases n
    cases g <;> rfl
  | succ f ih =>
    intro g n hf hg
    cases n with
    | zero => cases g <;> rfl
    | succ m =>
      cases g with
      | zero => omega
      | succ g =>
        show ((m + 1) % 10) :: natDigitsAux f ((m + 1) / 10)
            = ((m + 1) % 10) :: natDigitsAux g ((m + 1) / 10)
        have h1 : (m + 1) / 10 < m + 1 := Nat.div_lt_self (Nat.succ_pos m) (by norm_num)
        rw [ih g ((m + 1) / 10) (by omega) (by omega)]

theorem natDigits_succ (m : Nat) :
    natDigits (m + 1) = ((m + 1) % 10) :: natDigits ((m + 1) / 10) := by
  show natDigitsAux (m + 1) (m + 1) = _
  show ((m + 1) % 10) :: natDigitsAux m ((m + 1) / 10) = _
  have h1 : (m + 1) / 10 < m + 1 := Nat.div_lt_self (Nat.succ_pos m) (by norm_num)
  rw [natDigitsAux_fuel m ((m + 1) / 10) ((m + 1) / 10) (by omega) (by omega)]
  rfl

theorem natDigits_eq_digits (n : Nat) : natDigits n = Nat.digits 10 n := by
  induction n using Nat.strong_induction_on with
  | _ n ih =>
    cases n with
    | zero => rw [show natDigits 0 = [] from rfl, Nat.digits_zero]
    | succ m =>
      rw [natDigits_succ, Nat.digits_def' (by norm_num : (1:Nat) < 10) (Nat.succ_pos m)]
      congr 1
      exact ih _ (Nat.div_lt_self (Nat.succ_pos m) (by norm_num))

theorem natDigits_lt_ten (n : Nat) : ∀ d ∈ natDigits n, d < 10 := by
  rw [natDigits_eq_digits]
  intro d hd
  exact Nat.digits_lt_base (by norm_num) hd

theorem asciiVal_digitAscii (d : Nat) (h : d < 10) : asciiVal (digitAscii d) = d := by
  interval_cases d <;> decide

theorem isDigitAscii_digitAscii (d : Nat) (h : d < 10) : isDigitAscii (digitAscii d) = true := by
  interval_cases d <;> decide

theorem digitsVal_foldl (l : List Nat) (a : Nat) :
    l.foldl (fun a d => a * 10 + d) a = a * 10 ^ l.length + Nat.ofDigits 10 l.reverse := by
  induction l generalizing a with
  | nil => simp [Nat.ofDigits]
  | cons d l ih =>
    simp only [List.foldl_cons, List.reverse_cons, List.length_cons]
    rw [ih, Nat.ofDigits_append]
    simp [Nat.ofDigits]
    ring

theorem digitsVal_natDigits (n : Nat) : digitsVal (natDigits n).reverse = n := by
  show (natDigits n).reverse.foldl (fun a d => a * 10 + d) 0 = n
  rw [digitsVal_foldl, List.reverse_reverse, natDigits_eq_digits]
  simp [Nat.ofDigits_digits]

theorem charsVal_natChars (n : Nat) : charsVal (natChars n) = n := by
  show digitsVal (((natDigits n).reverse.map digitAscii).map asciiVal) = n
  rw [List.map_map]
  have h1 : (natDigits n).reverse.map (asciiVal ∘ digitAscii) = (natDigits n).reverse.map id :=
    List.map_congr_left (fun d hd =>
      asciiVal_digitAscii d (natDigits_lt_ten n d (List.mem_reverse.mp hd)))
  rw [h1, List.map_id]
  exact digitsVal_natDigits n

theorem digitsVal_replicate_zero_append (k : Nat) (l : List Nat) :
    digitsVal (List.replicate k 0 ++ l) = digitsVal l := by
  induction k with
  | zero => rfl
  | succ k ih =>
    have h1 : List.replicate (k + 1) 0 ++ l = 0 :: (List.replicate k 0 ++ l) := rfl
    rw [h1]
    show (List.replicate k 0 ++ l).foldl (fun a d => a * 10 + d) (0 * 10 + 0) = digitsVal l
    exact ih

theorem charsVal_natCharsPad (w n : Nat) : charsVal (natCharsPad w n) = n := by
  show digitsVal ((List.replicate (w - (natChars n).length) '0' ++ natChars n).map asciiVal) = n
  rw [List.map_append, List.map_replicate]
  have hz : asciiVal '0' = 0 := by decide
  rw [hz, digitsVal_replicate_zero_append]
  exact charsVal_natChars n

theorem natChars_all_digits (n : Nat) : ∀ c ∈ natChars n, isDigitAscii c = true := by
  intro c hc
  rcases List.mem_map.mp hc with ⟨d, hd, rfl⟩
  exact isDigitAscii_digitAscii d (natDigits_lt_ten n d (List.mem_reverse.mp hd))

theorem natCharsPad_all_digits (w n : Nat) : ∀ c ∈ natCharsPad w n, isDigitAscii c = true := by
  intro c hc
  rcases List.mem_append.mp hc with h | h
  · rw [List.eq_of_mem_replicate h]; decide
  · exact natChars_all_digits n c h

-- ===========================================================================
-- serde_json values and the integer scanners used by the codecs
-- ===========================================================================

/-- serde_json `Number`: the PosInt/NegInt variants are collapsed into `int`
(only the numeric value and the string/number distinction are observable in
this library); the finite-double variant carries its IEEE-754 bit pattern. -/
inductive JNum where
  | int (n : Int)
  | float (bits : Nat)
  deriving DecidableEq, Repr

/-- serde_json `Value`, restricted to the scalar variants: the array and
object variants are never produced by this library's codecs and nested or
repeated columns are out of scope, so they are omitted from the model. -/
inductive Json where
  | null
  | bool (b : Bool)
  | num (n : JNum)
  | str (s : String)
  deriving DecidableEq, Repr

/-- `serde_json::from_value::<String>`: succeeds exactly on JSON strings;
numbers, booleans etc. fail with an invalid-type error. -/
def jsonDeString : Json → RResult String
  | .str s => .ok s
  | _ => .err "invalid type: expected a string"

/-- IEEE-754 double-precision value, identified by its 64-bit pattern. -/
structure F64 where
  bits : Nat
  deriving DecidableEq, Repr

/-- Finiteness of a double: the exponent field is not all ones. -/
def F64.isFinite (x : F64) : Bool := (x.bits >>> 52) % 2048 ≠ 2047

/-- Rust `i64 as f64` / serde `Number::as_f64` on an integer: conversion to
the nearest double, rounding half to even, saturating to infinity. -/
def intToF64Bits (i : Int) : Nat :=
  if i = 0 then 0
  else
    let s : Nat := if i < 0 then 1 <<< 63 else 0
    let m := i.natAbs
    let e := Nat.log2 m
    if e ≤ 52 then s + ((e + 1023) <<< 52) + (m <<< (52 - e) - (1 <<< 52))
    else
      let sh := e - 52
      let q := m >>> sh
      let r := m - (q <<< sh)
      let half := 1 <<< (sh - 1)
      let q2 := if half < r || (r = half && q % 2 = 1) then q + 1 else q
      let mant := if q2 = 1 <<< 53 then 1 <<< 52 else q2
      let e2 := if q2 = 1 <<< 53 then e + 1 else e
      if 2047 ≤ e2 + 1023 then s + (2047 <<< 52)
      else s + ((e2 + 1023) <<< 52) + (mant - (1 <<< 52))

/-- Optional leading sign of a decimal numeral. -/
def splitSign (cs : List Char) : Bool × List Char :=
  match cs with
  | c :: r => if c = '-' then (true, r) else if c = '+' then (false, r) else (false, c :: r)
  | [] => (false, [])

/-- Rust `str::parse` for a signed integer type whose positive range bound is
`posBound` (i64: 2^63 - 1, i32: 2^31 - 1): optional sign, at least one digit,
only digits, with overflow checks. -/
def parseSignedDec (posBound : Nat) (s : String) : RResult Int :=
  let sd := splitSign s.data
  let neg := sd.1
  let ds := sd.2
  if ds = [] then .err "cannot parse integer from empty string"
  else if !(ds.all isDigitAscii) then .err "invalid digit found in string"
  else
    let v := charsVal ds
    if neg then
      if v ≤ posBound + 1 then .ok (-(v : Int)) else .err "number too small to fit in target type"
    else
      if v ≤ posBound then .ok (v : Int) else .err "number too large to fit in target type"

/-- `str::parse::<i64>`. -/
def parseI64 (s : String) : RResult Int := parseSignedDec (2 ^ 63 - 1) s

/-- `str::parse::<i32>`. -/
def parseI32 (s : String) : RResult Int := parseSignedDec (2 ^ 31 - 1) s

-- ===========================================================================
-- Value codec (convert_bigquery_params.rs): ConvertBigQueryParams impls
-- ===========================================================================

/-- `i64::from_param` (convert_bigquery_params.rs lines 16-24): deserialize
the JSON value as a string, then parse the string as a decimal integer.
A JSON number is not a JSON string, so it is rejected at the first step. -/
def i64_from_param (value : Json) : RResult Int :=
  (jsonDeString value).bind parseI64

/-- `i64::to_param`: `serde_json::to_value` of an i64 yields a JSON number. -/
def i64_to_param (n : Int) : Json := .num (.int n)

/-- `i32::from_param` (lines 26-34): same via-string parse as i64. -/
def i32_from_param (value : Json) : RResult Int :=
  (jsonDeString value).bind parseI32

/-- `i32::to_param`: a JSON number. -/
def i32_to_param (n : Int) : Json := .num (.int n)

/-- `bool::from_param` (lines 36-46): deserialize as string, then accept
exactly the four tokens TRUE/true/FALSE/false. -/
def bool_from_param (value : Json) : RResult Bool :=
  (jsonDeString value).bind (fun s =>
    if s = "TRUE" then .ok true
    else if s = "true" then .ok true
    else if s = "FALSE" then .ok false
    else if s = "false" then .ok false
    else .err ("Invalid value for bool: '" ++ s ++ "'"))

/-- `bool::to_param` (lines 47-52): the strings "TRUE" / "FALSE". -/
def bool_to_param (b : Bool) : Json := if b then .str "TRUE" else .str "FALSE"

/-- `String::from_param` (lines 55-59): deserialize as string; the subsequent
`parse::<String>` is the identity and infallible. -/
def string_from_param (value : Json) : RResult String := jsonDeString value

/-- `String::to_param`: the JSON string itself. -/
def string_to_param (s : String) : Json := .str s

/-- `f64::from_param` (lines 65-68): `serde_json::from_value::<f64>` accepts
any JSON number (integers via lossy conversion) and rejects anything else. -/
def f64_from_param (value : Json) : RResult F64 :=
  match value with
  | .num (.float b) => .ok ⟨b⟩
  | .num (.int i) => .ok ⟨intToF64Bits i⟩
  | _ => .err "invalid type: expected f64"

/-- `f64::to_param` (lines 69-71): `serde_json::to_value(f64).unwrap()` — the
conversion fails (and the unwrap panics) on NaN and infinities, and produces
the same finite double otherwise. -/
def f64_to_param (x : F64) : RResult Json :=
  if x.isFinite then .ok (.num (.float x.bits)) else .err "panic: to_value of a non-finite float"

-- ===========================================================================
-- DateTime<Utc> codec (convert_bigquery_params.rs lines 74-103)
-- ===========================================================================

/-- A chrono `DateTime<Utc>` in calendar-field form. Valid field vectors are
in bijection with timestamps, so equality of valid `DT` values coincides with
chrono's `DateTime` equality. `nano` holds the sub-second part. -/
structure DT where
  year : Nat
  month : Nat
  day : Nat
  hour : Nat
  minute : Nat
  second : Nat
  nano : Nat
  deriving DecidableEq, Repr

/-- Gregorian leap-year rule, as used by chrono's calendar validation. -/
def isLeapYear (y : Nat) : Bool := y % 4 = 0 && (y % 100 ≠ 0 || y % 400 = 0)

/-- Number of days of a month, as used by chrono's calendar validation. -/
def daysInMonth (y m : Nat) : Nat :=
  if m = 2 then (if isLeapYear y then 29 else 28)
  else if m = 4 || m = 6 || m = 9 || m = 11 then 30
  else 31

/-- The field ranges under which a `DT` denotes a real chrono datetime that
formats as four year digits (chrono additionally caps years at 9999 for the
plain four-digit form). -/
def DT.Valid (d : DT) : Prop :=
  d.year ≤ 9999 ∧ 1 ≤ d.month ∧ d.month ≤ 12 ∧ 1 ≤ d.day ∧ d.day ≤ daysInMonth d.year d.month ∧
  d.hour ≤ 23 ∧ d.minute ≤ 59 ∧ d.second ≤ 59 ∧ d.nano < 1000000000

instance (d : DT) : Decidable d.Valid := by
  unfold DT.Valid
  infer_instance

/-- `String::replace(pat, to)` for a single-character pattern and a
single-character replacement, at the character-list level. -/
def replaceAll (a b : Char) (cs : List Char) : List Char :=
  cs.map (fun c => if c = a then b else c)

/-- `String::replace(pat, "")` for a single-character pattern: every
occurrence is deleted. -/
def removeAll (a : Char) (cs : List Char) : List Char :=
  cs.filter (fun c => c ≠ a)

/-- `to_rfc3339_opts(SecondsFormat::Secs, true)`: the sub-second part is
dropped (not rounded) and the UTC offset is rendered as the suffix Z. -/
def rfc3339SecsChars (d : DT) : List Char :=
  natCharsPad 4 d.year ++ '-' :: (natCharsPad 2 d.month ++ '-' :: (natCharsPad 2 d.day ++
    'T' :: (natCharsPad 2 d.hour ++ ':' :: (natCharsPad 2 d.minute ++ ':' ::
      (natCharsPad 2 d.second ++ ['Z'])))))

/-- `DateTime<Utc>::to_param` (lines 90-102): format with seconds precision,
then `.replace("Z", "").replace("T", " ")`, producing a JSON string. -/
def dt_to_param (d : DT) : Json :=
  .str (String.mk (replaceAll 'T' ' ' (removeAll 'Z' (rfc3339SecsChars d))))

/-- chrono's bounded greedy numeric scan: consume up to `k` leading ASCII
digits. -/
def spanDigitsUpTo (k : Nat) (cs : List Char) : List Char × List Char :=
  match k, cs with
  | 0, cs => ([], cs)
  | _ + 1, [] => ([], [])
  | k + 1, c :: rest =>
    if isDigitAscii c then
      let p := spanDigitsUpTo k rest
      (c :: p.1, p.2)
    else ([], c :: rest)


/-- chrono numeric scan: at least one digit must be present. -/
def scanNum (k : Nat) (cs : List Char) : RResult (Nat × List Char) :=
  let p := spanDigitsUpTo k cs
  if p.1 = [] then .err "input contains invalid characters" else .ok (charsVal p.1, p.2)

/-- chrono literal scan: the next character must be the expected separator. -/
def scanLit (c : Char) (cs : List Char) : RResult (List Char) :=
  match cs with
  | d :: rest => if d = c then .ok rest else .err "input contains invalid characters"
  | [] => .err "premature end of input"

/-- `NaiveDateTime::parse_from_str(value, "%Y-%m-%d %H:%M:%S")` followed by
`DateTime::<Utc>::from_utc`: scan the six numeric fields with their literal
separators, require the input to be fully consumed, and validate the calendar
and clock ranges; the sub-second part of the result is 0. -/
def parseDT (cs0 : List Char) : RResult DT :=
  (scanNum 6 cs0).bind fun yc =>
  (scanLit '-' yc.2).bind fun cs1 =>
  (scanNum 2 cs1).bind fun moc =>
  (scanLit '-' moc.2).bind fun cs2 =>
  (scanNum 2 cs2).bind fun dc =>
  (scanLit ' ' dc.2).bind fun cs3 =>
  (scanNum 2 cs3).bind fun hc =>
  (scanLit ':' hc.2).bind fun cs4 =>
  (scanNum 2 cs4).bind fun mic =>
  (scanLit ':' mic.2).bind fun cs5 =>
  (scanNum 2 cs5).bind fun sc =>
  if sc.2 ≠ [] then .err "trailing input"
  else if 1 ≤ moc.1 ∧ moc.1 ≤ 12 ∧ 1 ≤ dc.1 ∧ dc.1 ≤ daysInMonth yc.1 moc.1 ∧
      hc.1 ≤ 23 ∧ mic.1 ≤ 59 ∧ sc.1 ≤ 59 then
    .ok ⟨yc.1, moc.1, dc.1, hc.1, mic.1, sc.1, 0⟩
  else .err "input is out of range"

/-- `DateTime<Utc>::from_param` (lines 75-89): deserialize as string, apply
`.replace("T", " ").replace("Z", "")`, then parse with the space-separated
format. -/
def dt_from_param (value : Json) : RResult DT :=
  (jsonDeString value).bind (fun s => parseDT (removeAll 'Z' (replaceAll 'T' ' ' s.data)))

-- Lemmas about the scanners and the character transformations.

theorem spanDigitsUpTo_append (l : List Char) : ∀ (k : Nat) (x : Char) (r : List Char),
    (∀ c ∈ l, isDigitAscii c = true) → l.length ≤ k → isDigitAscii x = false →
    spanDigitsUpTo k (l ++ x :: r) = (l, x :: r) := by
  induction l with
  | nil =>
    intro k x r _ _ hx
    cases k with
    | zero => rfl
    | succ k => simp [spanDigitsUpTo, hx]
  | cons c l ih =>
    intro k x r hdig hlen hx
    cases k with
    | zero => simp at hlen
    | succ k =>
      have hc : isDigitAscii c = true := hdig c (List.mem_cons_self c l)
      show spanDigitsUpTo (k + 1) (c :: (l ++ x :: r)) = _
      simp only [spanDigitsUpTo, hc, if_true]
      rw [ih k x r (fun d hd => hdig d (List.mem_cons_of_mem c hd)) (by simpa using hlen) hx]

theorem spanDigitsUpTo_all (l : List Char) : ∀ k : Nat,
    (∀ c ∈ l, isDigitAscii c = true) → l.length ≤ k →
    spanDigitsUpTo k l = (l, []) := by
  induction l with
  | nil =>
    intro k _ _
    cases k <;> rfl
  | cons c l ih =>
    intro k hdig hlen
    cases k with
    | zero => simp at hlen
    | succ k =>
      have hc : isDigitAscii c = true := hdig c (List.mem_cons_self c l)
      show spanDigitsUpTo (k + 1) (c :: l) = _
      simp only [spanDigitsUpTo, hc, if_true]
      rw [ih k (fun d hd => hdig d (List.mem_cons_of_mem c hd)) (by simpa using hlen)]

theorem natChars_length_le (k n : Nat) (h : n < 10 ^ k) : (natChars n).length ≤ k := by
  show ((natDigits n).reverse.map digitAscii).length ≤ k
  rw [List.length_map, List.length_reverse, natDigits_eq_digits]
  by_contra hlt
  push_neg at hlt
  rcases Nat.eq_zero_or_pos n with hn | hn
  · subst hn; simp at hlt
  · have h1 : 10 ^ (Nat.digits 10 n).length ≤ 10 * n :=
      Nat.base_pow_length_digits_le 10 n (by norm_num) (Nat.pos_iff_ne_zero.mp hn)
    have h2 : 10 ^ (k + 1) ≤ 10 ^ (Nat.digits 10 n).length :=
      Nat.pow_le_pow_right (by norm_num) hlt
    have h3 : 10 ^ (k + 1) = 10 * 10 ^ k := by ring
    omega

theorem natCharsPad_length (w n : Nat) (h : (natChars n).length ≤ w) :
    (natCharsPad w n).length = w := by
  show (List.replicate (w - (natChars n).length) '0' ++ natChars n).length = w
  rw [List.length_append, List.length_replicate]
  omega

theorem scanNum_pad (w k n : Nat) (x : Char) (r : List Char)
    (hn : n < 10 ^ w) (hw : 1 ≤ w) (hk : w ≤ k) (hx : isDigitAscii x = false) :
    scanNum k (natCharsPad w n ++ x :: r) = .ok (n, x :: r) := by
  have hlen : (natCharsPad w n).length = w :=
    natCharsPad_length w n (natChars_length_le w n hn)
  unfold scanNum
  rw [spanDigitsUpTo_append _ k x r (natCharsPad_all_digits w n) (by omega) hx]
  have hne : natCharsPad w n ≠ [] := by
    intro hcon
    rw [hcon] at hlen
    simp at hlen
    omega
  simp only [hne, if_false, charsVal_natCharsPad]

theorem scanNum_pad_end (w k n : Nat) (hn : n < 10 ^ w) (hw : 1 ≤ w) (hk : w ≤ k) :
    scanNum k (natCharsPad w n) = .ok (n, []) := by
  have hlen : (natCharsPad w n).length = w :=
    natCharsPad_length w n (natChars_length_le w n hn)
  unfold scanNum
  rw [spanDigitsUpTo_all _ k (natCharsPad_all_digits w n) (by omega)]
  have hne : natCharsPad w n ≠ [] := by
    intro hcon
    rw [hcon] at hlen
    simp at hlen
    omega
  simp only [hne, if_false, charsVal_natCharsPad]

theorem digit_ne_of_not_digit (c a : Char) (hc : isDigitAscii c = true)
    (ha : isDigitAscii a = false) : c ≠ a := by
  intro h
  rw [h] at hc
  rw [hc] at ha
  exact absurd ha (by simp)

theorem replaceAll_eq_self (a b : Char) (cs : List Char) (h : ∀ c ∈ cs, c ≠ a) :
    replaceAll a b cs = cs := by
  show cs.map (fun c => if c = a then b else c) = cs
  have h1 : cs.map (fun c => if c = a then b else c) = cs.map id := by
    apply List.map_congr_left
    intro c hc
    simp [h c hc]
  rw [h1, List.map_id]

theorem removeAll_eq_self (a : Char) (cs : List Char) (h : ∀ c ∈ cs, c ≠ a) :
    removeAll a cs = cs := by
  show cs.filter (fun c => c ≠ a) = cs
  apply List.filter_eq_self.mpr
  intro c hc
  simp [h c hc]

/-- The space-separated seconds-precision rendering "Y-m-d H:M:S" that
`to_param` produces and `from_param` consumes. -/
def spaceFormChars (d : DT) : List Char :=
  natCharsPad 4 d.year ++ '-' :: (natCharsPad 2 d.month ++ '-' :: (natCharsPad 2 d.day ++
    ' ' :: (natCharsPad 2 d.hour ++ ':' :: (natCharsPad 2 d.minute ++ ':' ::
      natCharsPad 2 d.second))))

theorem removeAll_append (a : Char) (l1 l2 : List Char) :
    removeAll a (l1 ++ l2) = removeAll a l1 ++ removeAll a l2 := by
  simp [removeAll]

theorem removeAll_cons_of_ne (a c : Char) (l : List Char) (h : c ≠ a) :
    removeAll a (c :: l) = c :: removeAll a l := by
  simp [removeAll, List.filter_cons, h]

theorem removeAll_cons_self (a : Char) (l : List Char) :
    removeAll a (a :: l) = removeAll a l := by
  simp [removeAll, List.filter_cons]

theorem replaceAll_append (a b : Char) (l1 l2 : List Char) :
    replaceAll a b (l1 ++ l2) = replaceAll a b l1 ++ replaceAll a b l2 := by
  simp [replaceAll]

theorem replaceAll_cons_of_ne (a b c : Char) (l : List Char) (h : c ≠ a) :
    replaceAll a b (c :: l) = c :: replaceAll a b l := by
  simp [replaceAll, h]

theorem replaceAll_cons_self (a b : Char) (l : List Char) :
    replaceAll a b (a :: l) = b :: replaceAll a b l := by
  simp [replaceAll]

theorem pad_ne_of_not_digit (w n : Nat) (a : Char) (ha : isDigitAscii a = false) :
    ∀ c ∈ natCharsPad w n, c ≠ a :=
  fun c hc => digit_ne_of_not_digit c a (natCharsPad_all_digits w n c hc) ha

theorem removeAll_pad (a : Char) (w n : Nat) (ha : isDigitAscii a = false) :
    removeAll a (natCharsPad w n) = natCharsPad w n :=
  removeAll_eq_self a _ (pad_ne_of_not_digit w n a ha)

theorem replaceAll_pad (a b : Char) (w n : Nat) (ha : isDigitAscii a = false) :
    replaceAll a b (natCharsPad w n) = natCharsPad w n :=
  replaceAll_eq_self a b _ (pad_ne_of_not_digit w n a ha)

/-- The two `String::replace` calls of `to_param` turn the RFC-3339 rendering
into the space-separated form. -/
theorem to_param_transform (d : DT) :
    replaceAll 'T' ' ' (removeAll 'Z' (rfc3339SecsChars d)) = spaceFormChars d := by
  unfold rfc3339SecsChars spaceFormChars
  rw [removeAll_append, removeAll_pad 'Z' 4 d.year (by decide),
    removeAll_cons_of_ne 'Z' '-' _ (by decide),
    removeAll_append, removeAll_pad 'Z' 2 d.month (by decide),
    removeAll_cons_of_ne 'Z' '-' _ (by decide),
    removeAll_append, removeAll_pad 'Z' 2 d.day (by decide),
    removeAll_cons_of_ne 'Z' 'T' _ (by decide),
    removeAll_append, removeAll_pad 'Z' 2 d.hour (by decide),
    removeAll_cons_of_ne 'Z' ':' _ (by decide),
    removeAll_append, removeAll_pad 'Z' 2 d.minute (by decide),
    removeAll_cons_of_ne 'Z' ':' _ (by decide),
    removeAll_append, removeAll_pad 'Z' 2 d.second (by decide),
    removeAll_cons_self, show removeAll 'Z' [] = [] from rfl,
    List.append_nil]
  rw [replaceAll_append, replaceAll_pad 'T' ' ' 4 d.year (by decide),
    replaceAll_cons_of_ne 'T' ' ' '-' _ (by decide),
    replaceAll_append, replaceAll_pad 'T' ' ' 2 d.month (by decide),
    replaceAll_cons_of_ne 'T' ' ' '-' _ (by decide),
    replaceAll_append, replaceAll_pad 'T' ' ' 2 d.day (by decide),
    replaceAll_cons_self,
    replaceAll_append, replaceAll_pad 'T' ' ' 2 d.hour (by decide),
    replaceAll_cons_of_ne 'T' ' ' ':' _ (by decide),
    replaceAll_append, replaceAll_pad 'T' ' ' 2 d.minute (by decide),
    replaceAll_cons_of_ne 'T' ' ' ':' _ (by decide),
    replaceAll_pad 'T' ' ' 2 d.second (by decide)]

/-- Every character of the space-separated form is a digit or one of the
three separators. -/
theorem spaceForm_mem (d : DT) : ∀ c ∈ spaceFormChars d,
    isDigitAscii c = true ∨ c = '-' ∨ c = ' ' ∨ c = ':' := by
  intro c hc
  unfold spaceFormChars at hc
  simp only [List.mem_append, List.mem_cons] at hc
  rcases hc with h | h
  · exact Or.inl (natCharsPad_all_digits 4 d.year c h)
  · rcases h with h | h
    · exact Or.inr (Or.inl h)
    rcases h with h | h
    · exact Or.inl (natCharsPad_all_digits 2 d.month c h)
    rcases h with h | h
    · exact Or.inr (Or.inl h)
    rcases h with h | h
    · exact Or.inl (natCharsPad_all_digits 2 d.day c h)
    rcases h with h | h
    · exact Or.inr (Or.inr (Or.inl h))
    rcases h with h | h
    · exact Or.inl (natCharsPad_all_digits 2 d.hour c h)
    rcases h with h | h
    · exact Or.inr (Or.inr (Or.inr h))
    rcases h with h | h
    · exact Or.inl (natCharsPad_all_digits 2 d.minute c h)
    rcases h with h | h
    · exact Or.inr (Or.inr (Or.inr h))
    · exact Or.inl (natCharsPad_all_digits 2 d.second c h)

/-- The two `String::replace` calls of `from_param` leave the space-separated
form unchanged (it contains no T and no Z). -/
theorem from_param_transform (d : DT) :
    removeAll 'Z' (replaceAll 'T' ' ' (spaceFormChars d)) = spaceFormChars d := by
  have hT : ∀ c ∈ spaceFormChars d, c ≠ 'T' := by
    intro c hc
    rcases spaceForm_mem d c hc with h | h | h | h
    · exact digit_ne_of_not_digit c 'T' h (by decide)
    all_goals (subst h; decide)
  have hZ : ∀ c ∈ spaceFormChars d, c ≠ 'Z' := by
    intro c hc
    rcases spaceForm_mem d c hc with h | h | h | h
    · exact digit_ne_of_not_digit c 'Z' h (by decide)
    all_goals (subst h; decide)
  rw [replaceAll_eq_self 'T' ' ' _ hT, removeAll_eq_self 'Z' _ hZ]

/-- Parsing the space-separated rendering of a valid datetime recovers its
fields with the sub-second part zeroed. -/
theorem scanLit_cons_self (c : Char) (r : List Char) : scanLit c (c :: r) = .ok r := by
  simp [scanLit]

theorem parseDT_spaceForm (d : DT) (h : d.Valid) :
    parseDT (spaceFormChars d) = .ok {d with nano := 0} := by
  obtain ⟨hy, hmo1, hmo2, hd1, hd2, hh, hmi, hs, _⟩ := h
  have hdm : daysInMonth d.year d.month ≤ 31 := by
    unfold daysInMonth
    split_ifs <;> omega
  unfold parseDT spaceFormChars
  rw [scanNum_pad 4 6 d.year '-' _ (by omega) (by omega) (by omega) (by decide)]
  simp only [RResult.bind]
  rw [scanLit_cons_self]
  simp only [RResult.bind]
  rw [scanNum_pad 2 2 d.month '-' _ (by omega) (by omega) (by omega) (by decide)]
  simp only [RResult.bind]
  rw [scanLit_cons_self]
  simp only [RResult.bind]
  rw [scanNum_pad 2 2 d.day ' ' _ (by omega) (by omega) (by omega) (by decide)]
  simp only [RResult.bind]
  rw [scanLit_cons_self]
  simp only [RResult.bind]
  rw [scanNum_pad 2 2 d.hour ':' _ (by omega) (by omega) (by omega) (by decide)]
  simp only [RResult.bind]
  rw [scanLit_cons_self]
  simp only [RResult.bind]
  rw [scanNum_pad 2 2 d.minute ':' _ (by omega) (by omega) (by omega) (by decide)]
  simp only [RResult.bind]
  rw [scanLit_cons_self]
  simp only [RResult.bind]
  rw [scanNum_pad_end 2 2 d.second (by omega) (by omega) (by omega)]
  simp only [RResult.bind]
  rw [if_neg (by simp)]
  rw [if_pos (by exact ⟨hmo1, hmo2, hd1, hd2, hh, hmi, hs⟩)]

/-- DATETIME round-trip: `from_param (to_param d)` recovers `d` truncated to
seconds, for every valid datetime. -/
theorem dt_roundtrip (d : DT) (h : d.Valid) :
    dt_from_param (dt_to_param d) = .ok {d with nano := 0} := by
  unfold dt_to_param dt_from_param
  simp only [jsonDeString, RResult.bind]
  rw [to_param_transform, from_param_transform]
  exact parseDT_spaceForm d h

-- ===========================================================================
-- Host values, typed codec dispatch, and the remaining codec helpers
-- ===========================================================================

/-- A value of one of the supported host scalar types (the types with a
`ConvertBigQueryParams` impl). `vNone`/`vSome` are the two `Option` shapes. -/
inductive HostVal where
  | vBool (b : Bool)
  | vI32 (n : Int)
  | vI64 (n : Int)
  | vF64 (x : F64)
  | vString (s : String)
  | vDT (d : DT)
  | vNone
  | vSome (v : HostVal)
  deriving DecidableEq, Repr

/-- The host type of a record field, as the derive macro sees it. -/
inductive FieldType where
  | tBool
  | tI32
  | tI64
  | tF64
  | tString
  | tDT
  | tOpt (t : FieldType)
  deriving DecidableEq, Repr

/-- `to_param` dispatched on the runtime value: each case is the
corresponding `ConvertBigQueryParams::to_param` impl; `vSome v` delegates to
the inner value and `vNone` yields JSON null (the `Option<T>` impl). The
unwrap panic of the f64 impl on non-finite doubles is modelled separately in
`f64_to_param` and is not reachable from any claim below. -/
def hostToParam : HostVal → Json
  | .vBool b => bool_to_param b
  | .vI32 n => i32_to_param n
  | .vI64 n => i64_to_param n
  | .vF64 x => .num (.float x.bits)
  | .vString s => string_to_param s
  | .vDT d => dt_to_param d
  | .vNone => .null
  | .vSome v => hostToParam v

/-- `from_param` dispatched on the static field type: each case is the
corresponding `ConvertBigQueryParams::from_param` impl; the `tOpt` case is
the `Option<T>` impl (null maps to None without consulting T's codec). -/
def fromParamTy : FieldType → Json → RResult HostVal
  | .tBool, v => (bool_from_param v).map .vBool
  | .tI32, v => (i32_from_param v).map .vI32
  | .tI64, v => (i64_from_param v).map .vI64
  | .tF64, v => (f64_from_param v).map .vF64
  | .tString, v => (string_from_param v).map .vString
  | .tDT, v => (dt_from_param v).map .vDT
  | .tOpt _, .null => .ok .vNone
  | .tOpt t, v => (fromParamTy t v).map .vSome

/-- `ConvertTypeToBigQueryType::convert_type_to_bigquery_type`
(convert_type_to_big_query_type.rs). Modelled from the spec: the source has
no impl for `Option<T>` (although the derive instantiates the trait at
optional field types); spec section 4.1 specifies that optional T inherits
T's warehouse type name, which the `tOpt` case implements. -/
def convert_type_to_bigquery_type : FieldType → String
  | .tBool => "BOOL"
  | .tI32 => "INT64"
  | .tI64 => "INT64"
  | .tF64 => "DOUBLE"
  | .tString => "STRING"
  | .tDT => "DATETIME"
  | .tOpt t => convert_type_to_bigquery_type t

/-- serde_json `Value::to_string()` (JSON serialization) for the values that
can reach it here: string escape sequences and the shortest-round-trip float
rendering are not modelled (the string case is peeled off by
`convert_value_to_string` before rendering, and no claim below renders a
float). -/
def jsonRender : Json → String
  | .null => "null"
  | .bool b => if b then "true" else "false"
  | .num (.int n) => intToString n
  | .num (.float bits) => "float-rendering-not-modelled:" ++ natToString bits
  | .str s => "\"" ++ s ++ "\""

/-- `convert_value_to_string` (convert_bigquery_params.rs lines 132-150):
strings pass through unquoted, null is an error, anything else is rendered
with `Value::to_string()`. -/
def convert_value_to_string (value : Json) : RResult String :=
  match value with
  | .str s => .ok s
  | .null => .err "Value is Null"
  | v => .ok (jsonRender v)

/-- Rust `Debug` rendering of a host value, as interpolated by `{:?}` in the
library's error messages. The chrono `Debug` form for datetimes is
approximated by the RFC-3339 seconds form (no claim formats a datetime). -/
def hostDebug : HostVal → String
  | .vBool b => if b then "true" else "false"
  | .vI32 n => intToString n
  | .vI64 n => intToString n
  | .vF64 x => "float-debug-not-modelled:" ++ natToString x.bits
  | .vString s => "\"" ++ s ++ "\""
  | .vDT d => String.mk (rfc3339SecsChars d)
  | .vNone => "None"
  | .vSome v => "Some(" ++ hostDebug v ++ ")"

-- ===========================================================================
-- Record schema (derive macro output) and record instances
-- ===========================================================================

/-- One non-client, non-ignored field of a record type as the derive macro
materializes it: local (struct) name, database column name, host type. -/
structure FieldDecl where
  localName : String
  dbName : String
  ty : FieldType
  deriving DecidableEq, Repr

/-- The compile-time schema the derive macro extracts from a record type:
the table name, the primary-key field (pre-extracted by `get_pk_field`), and
`get_fields_without_client` — every non-client, non-ignored field in
declaration order, the primary key included at its declared position.
Ignored (`db_ignore`) and client fields never appear in `fields`. -/
structure Schema where
  tableName : String
  pkField : FieldDecl
  fields : List FieldDecl
  deriving DecidableEq, Repr

/-- The transport client: only the project and dataset identifiers are
observable in the query pipeline; the HTTP stack behind `get_client()` is
external and not modelled. -/
structure BigqueryClient where
  projectId : String
  datasetId : String
  deriving DecidableEq, Repr

/-- A record instance: the client field plus the values of the schema
fields keyed by local name (an association list with the distinct struct
field names as keys). -/
structure TableRec where
  client : BigqueryClient
  vals : List (String × HostVal)
  deriving DecidableEq, Repr

/-- Rust field access `self.#field_ident`, which is infallible; the default
is never reached when `vals` carries the schema's locals. -/
def recGet (r : TableRec) (localName : String) : HostVal :=
  (r.vals.lookup localName).getD (.vString "panic: missing field")

/-- `get_query_fields(include_pk)` (generated; derive lib.rs lines 176-205):
a map built by inserting the pk pair first (when requested) and then every
other non-client, non-ignored field. The Rust HashMap is modelled as an
association list in insertion order; every order-sensitive consumer sorts it
before use, so the arbitrary HashMap iteration order is not observable in
the claims below. -/
def get_query_fields (s : Schema) (includePk : Bool) : List (String × String) :=
  (if includePk then [(s.pkField.localName, s.pkField.dbName)] else []) ++
    (s.fields.filter (fun f => f.localName ≠ s.pkField.localName)).map
      (fun f => (f.localName, f.dbName))

/-- `get_field_db_name` (bigquery_table.rs lines 130-138): look the local
name up in `get_query_fields(true)`. -/
def get_field_db_name (s : Schema) (field_name : String) : RResult String :=
  match (get_query_fields s true).lookup field_name with
  | some db => .ok db
  | none => .err ("Field " ++ field_name ++ " not found.")

/-- `get_field_param_name` (bigquery_table.rs lines 125-129). -/
def get_field_param_name (s : Schema) (field_name : String) : RResult String :=
  (get_field_db_name s field_name).map (fun db => "__PARAM_" ++ db)

/-- google_bigquery2 `QueryParameterType` (only the used field). -/
structure QueryParameterType where
  type_ : Option String
  deriving DecidableEq, Repr

/-- google_bigquery2 `QueryParameterValue` (only the used field). -/
structure QueryParameterValue where
  value : Option String
  deriving DecidableEq, Repr

/-- google_bigquery2 `QueryParameter`. -/
structure QueryParameter where
  name : Option String
  parameterType : Option QueryParameterType
  parameterValue : Option QueryParameterValue
  deriving DecidableEq, Repr

/-- `get_parameter` (bigquery_table.rs lines 89-124): convert the value to
its JSON form and then to a string; on conversion failure (a null value) the
source hits `todo!()`, modelled as a panic error. -/
def get_parameter (v : HostVal) (ty : FieldType) (param_name : String) : RResult QueryParameter :=
  let value := hostToParam v
  let param_type : QueryParameterType := ⟨some (convert_type_to_bigquery_type ty)⟩
  match convert_value_to_string value with
  | .ok s => .ok ⟨some param_name, some param_type, some ⟨some s⟩⟩
  | .err _ => .err "panic: todo! a parameter value probably of sort null is not yet implemented"

/-- `get_parameter_from_field` (generated; derive lib.rs lines 99-122): match
on the field name over the non-client fields and wrap `get_parameter` of the
field's value under the name `__PARAM_<db_name>`. The generated signature
returns `Result<Option<QueryParameter>>` while `get_parameter` returns a
plain `Result` (the crate's own trait declaration disagrees with both);
the faithful composition threads `get_parameter`'s error and never yields
`none`. -/
def get_parameter_from_field (s : Schema) (r : TableRec) (field_name : String) :
    RResult (Option QueryParameter) :=
  match s.fields.find? (fun f => f.localName = field_name) with
  | some f => (get_field_param_name s field_name).bind (fun pname =>
      (get_parameter (recGet r field_name) f.ty pname).map some)
  | none => .err ("Field " ++ field_name ++ " not found")

/-- `set_field_value` (generated; derive lib.rs lines 216-239): route the
JSON value through the field type's `from_param` and store it. -/
def set_field_value (s : Schema) (r : TableRec) (field_name : String) (value : Json) :
    RResult TableRec :=
  match s.fields.find? (fun f => f.localName = field_name) with
  | some f => (fromParamTy f.ty value).map (fun hv =>
      { r with vals := r.vals.map (fun p => if p.1 = field_name then (p.1, hv) else p) })
  | none => .err ("Field '" ++ field_name ++ "' not found")

/-- `get_field_value` (generated; derive lib.rs lines 240-261): the field's
`to_param` JSON form. -/
def get_field_value (s : Schema) (r : TableRec) (field_name : String) : RResult Json :=
  match s.fields.find? (fun f => f.localName = field_name) with
  | some _ => .ok (hostToParam (recGet r field_name))
  | none => .err ("Field '" ++ field_name ++ "' not found")

/-- Rust `row[db_name]` on a HashMap: panics when the key is missing. -/
def rowIndex (row : List (String × Json)) (db : String) : RResult Json :=
  match row.lookup db with
  | some v => .ok v
  | none => .err "panic: no entry found for key"

/-- Value part of `new_from_query_result_row` (generated; derive lib.rs
lines 263-290): for each non-client field in declaration order, decode
`row[db_name]` through the field type's `from_param`; the first failure
aborts the construction. -/
def buildRowVals (row : List (String × Json)) : List FieldDecl → RResult (List (String × HostVal))
  | [] => .ok []
  | f :: rest =>
    (rowIndex row f.dbName).bind (fun j =>
      (fromParamTy f.ty j).bind (fun hv =>
        (buildRowVals row rest).map (fun vs => (f.localName, hv) :: vs)))

/-- `new_from_query_result_row`: the client field is populated from the
argument and every other field is decoded from the row map. -/
def new_from_query_result_row (s : Schema) (client : BigqueryClient)
    (row : List (String × Json)) : RResult TableRec :=
  (buildRowVals row s.fields).map (fun vs => ⟨client, vs⟩)

/-- `update_from` (bigquery_table.rs lines 247-253) iterates
`get_query_fields(true)` copying field values from `other` into `self` with
`get_field_value`/`set_field_value`; the mutation is in place, so work done
before a failure persists. The helper returns the final state of `self`
together with the error, if any. -/
def update_from_go (s : Schema) (other : TableRec) :
    List (String × String) → TableRec → TableRec × Option String
  | [], self => (self, none)
  | (localName, _) :: rest, self =>
    match get_field_value s other localName with
    | .err m => (self, some m)
    | .ok v =>
      match set_field_value s self localName v with
      | .err m => (self, some m)
      | .ok r2 => update_from_go s other rest r2

/-- `update_from`: final state of `self` and the optional error. -/
def update_from (s : Schema) (self other : TableRec) : TableRec × Option String :=
  update_from_go s other (get_query_fields s true) self

-- ===========================================================================
-- Derive-time checks (google_bigquery_v2_derive/src/lib.rs)
-- ===========================================================================

/-- A named struct field as the derive macro's attribute scan sees it
(`parse_local_field` with `include_ignored = true`): local name, db name
(defaulted to the local name when no attribute renames it), and the three
marker attributes. -/
structure RawField where
  localName : String
  dbName : String
  isPk : Bool
  isClient : Bool
  ignored : Bool
  deriving DecidableEq, Repr

/-- `get_pk_field` (derive lib.rs lines 323-330): panic unless exactly one
field carries the primary_key attribute (the scan includes ignored fields). -/
def get_pk_field (fs : List RawField) : RResult RawField :=
  match fs.filter (fun f => f.isPk) with
  | [p] => .ok p
  | _ => .err "panic: Exactly one primary key field must be specified"

/-- `get_client_field` (derive lib.rs lines 332-341): panic unless exactly
one field carries the client attribute. -/
def get_client_field (fs : List RawField) : RResult RawField :=
  match fs.filter (fun f => f.isClient) with
  | [c] => .ok c
  | _ => .err "panic: Exactly one client field must be specified"

/-- `impl_big_query_table_derive` (derive lib.rs lines 29-33): the only
checks the generator performs before emitting code are the two exactly-one
extractions; no other validation (in particular no duplicate-db-name check)
exists anywhere in the macro. -/
def impl_big_query_table_derive (fs : List RawField) : RResult Unit :=
  (get_pk_field fs).bind (fun _ => (get_client_field fs).bind (fun _ => .ok ()))

-- ===========================================================================
-- The lexicographic order used by Vec<(String, String)>::sort()
-- ===========================================================================

/-- Rust byte-wise lexicographic "less or equal" on strings, on the character
lists (UTF-8 byte order coincides with scalar-value order). -/
def charListLe : List Char → List Char → Bool
  | [], _ => true
  | _ :: _, [] => false
  | c :: cs, d :: ds => (c.toNat < d.toNat) || (c.toNat = d.toNat && charListLe cs ds)

/-- Rust `Ord` for `(String, String)`: lexicographic on the pair, first
component first. -/
def pairLe (a b : String × String) : Bool :=
  if a.1 = b.1 then charListLe a.2.data b.2.data else charListLe a.1.data b.1.data

theorem charListLe_total : ∀ x y : List Char, charListLe x y = true ∨ charListLe y x = true := by
  intro x
  induction x with
  | nil => intro y; left; rfl
  | cons c cs ih =>
    intro y
    cases y with
    | nil => right; rfl
    | cons d ds =>
      simp only [charListLe, Bool.or_eq_true, decide_eq_true_eq, Bool.and_eq_true]
      rcases Nat.lt_trichotomy c.toNat d.toNat with h | h | h
      · left; left; exact h
      · rcases ih ds with h2 | h2
        · left; right; exact ⟨h, h2⟩
        · right; right; exact ⟨h.symm, h2⟩
      · right; left; exact h

theorem charListLe_refl (x : List Char) : charListLe x x = true := by
  induction x with
  | nil => rfl
  | cons c cs ih => simp [charListLe, ih]

theorem charListLe_trans : ∀ x y z : List Char,
    charListLe x y = true → charListLe y z = true → charListLe x z = true := by
  intro x
  induction x with
  | nil => intro y z _ _; rfl
  | cons c cs ih =>
    intro y z h1 h2
    cases y with
    | nil => exact absurd h1 (by simp [charListLe])
    | cons d ds =>
      cases z with
      | nil => exact absurd h2 (by simp [charListLe])
      | cons e es =>
        simp only [charListLe, Bool.or_eq_true, decide_eq_true_eq, Bool.and_eq_true] at h1 h2 ⊢
        rcases h1 with h1 | ⟨h1a, h1b⟩
        · rcases h2 with h2 | ⟨h2a, h2b⟩
          · left; omega
          · left; omega
        · rcases h2 with h2 | ⟨h2a, h2b⟩
          · left; omega
          · right; exact ⟨by omega, ih ds es h1b h2b⟩

theorem pairLe_total (a b : String × String) : pairLe a b = true ∨ pairLe b a = true := by
  unfold pairLe
  by_cases h : a.1 = b.1
  · rw [if_pos h, if_pos h.symm]
    exact charListLe_total a.2.data b.2.data
  · rw [if_neg h, if_neg (fun hc => h hc.symm)]
    exact charListLe_total a.1.data b.1.data

theorem string_data_inj (a b : String) (h : a.data = b.data) : a = b := by
  cases a
  cases b
  exact congrArg String.mk h

theorem charListLe_antisymm : ∀ x y : List Char,
    charListLe x y = true → charListLe y x = true → x = y := by
  intro x
  induction x with
  | nil =>
    intro y h1 h2
    cases y with
    | nil => rfl
    | cons d ds => exact absurd h2 (by simp [charListLe])
  | cons c cs ih =>
    intro y h1 h2
    cases y with
    | nil => exact absurd h1 (by simp [charListLe])
    | cons d ds =>
      simp only [charListLe, Bool.or_eq_true, decide_eq_true_eq, Bool.and_eq_true] at h1 h2
      have hcd : c.toNat = d.toNat := by omega
      have heq : c = d := Char.eq_of_val_eq (UInt32.toNat.inj hcd)
      subst heq
      have : cs = ds := by
        rcases h1 with h1 | ⟨_, h1⟩
        · omega
        rcases h2 with h2 | ⟨_, h2⟩
        · omega
        · exact ih ds h1 h2
      rw [this]

theorem pairLe_trans (a b c : String × String)
    (h1 : pairLe a b = true) (h2 : pairLe b c = true) : pairLe a c = true := by
  unfold pairLe at h1 h2 ⊢
  by_cases hab : a.1 = b.1 <;> by_cases hbc : b.1 = c.1
  · rw [if_pos hab] at h1
    rw [if_pos hbc] at h2
    rw [if_pos (hab.trans hbc)]
    exact charListLe_trans _ _ _ h1 h2
  · rw [if_pos hab] at h1
    rw [if_neg hbc] at h2
    rw [if_neg (fun h => hbc (hab ▸ h)), hab]
    exact h2
  · rw [if_neg hab] at h1
    rw [if_pos hbc] at h2
    rw [if_neg (fun h => hab (h.trans hbc.symm)), ← hbc]
    exact h1
  · rw [if_neg hab] at h1
    rw [if_neg hbc] at h2
    by_cases hac : a.1 = c.1
    · exfalso
      have h3 : charListLe c.1.data b.1.data = true := hac ▸ h1
      have h4 : b.1 = c.1 := (string_data_inj _ _ (charListLe_antisymm _ _ h2 h3)).symm.symm
      exact hbc h4
    · rw [if_neg hac]
      exact charListLe_trans _ _ _ h1 h2

/-- The sorted-pair relation as a Prop, for Mathlib's insertion sort. -/
def PairLeP (a b : String × String) : Prop := pairLe a b = true

instance : DecidableRel PairLeP := fun a b => inferInstanceAs (Decidable (_ = true))

instance : IsTotal (String × String) PairLeP := ⟨pairLe_total⟩

instance : IsTrans (String × String) PairLeP := ⟨pairLe_trans⟩

-- ===========================================================================
-- Query builder (query_builder.rs)
-- ===========================================================================

/-- `OrderDirection` (bigquery_table.rs lines 258-271). -/
inductive OrderDirection where
  | ascending
  | descending
  deriving DecidableEq, Repr

/-- `OrderDirection::to_query_str`. -/
def OrderDirection.to_query_str : OrderDirection → String
  | .ascending => "ASC"
  | .descending => "DESC"

/-- `QueryBuilder` (query_builder.rs lines 159-173). The four phantom
typestate axes have no runtime representation; they are reified here as an
optional client, an optional starting record and a `built` flag (the
statement kind is carried by which `build_query` function is applied). -/
structure QueryBuilder where
  client : Option BigqueryClient
  query : String
  params : List QueryParameter
  where_clauses : List String
  order_by : List (String × OrderDirection)
  limit : Option Nat
  starting_data : Option TableRec
  built : Bool
  deriving DecidableEq, Repr

/-- `Default for QueryBuilder` (lines 176-194), the state produced by
`select()` / `insert()` / `update()` / `delete()` (lines 387-418). -/
def QueryBuilder.init : QueryBuilder :=
  ⟨none, "", [], [], [], none, none, false⟩

/-- `with_client` (lines 666-686). -/
def with_client (b : QueryBuilder) (c : BigqueryClient) : QueryBuilder :=
  { b with client := some c }

/-- `set_data` (lines 362-383). -/
def set_data (b : QueryBuilder) (data : TableRec) : QueryBuilder :=
  { b with starting_data := some data }

/-- `set_limit` (lines 313-319). -/
def set_limit (b : QueryBuilder) (limit : Nat) : QueryBuilder :=
  { b with limit := some limit }

/-- `add_order_by` (lines 619-627): pushes the raw column name; resolution to
the db name happens at build time. -/
def add_order_by (b : QueryBuilder) (column_name : String) (direction : OrderDirection) :
    QueryBuilder :=
  { b with order_by := b.order_by ++ [(column_name, direction)] }

/-- `un_build` (lines 690-712): rebuilds the struct copying every runtime
field; only the phantom built flag changes. -/
def un_build (b : QueryBuilder) : QueryBuilder :=
  { client := b.client, query := b.query, params := b.params,
    where_clauses := b.where_clauses, order_by := b.order_by, limit := b.limit,
    starting_data := b.starting_data, built := false }

/-- `get_query_string` (lines 709-711). -/
def get_query_string (b : QueryBuilder) : String := b.query

/-- `get_sorted_selected_fields` (lines 201-207): collect
`get_query_fields(true)` into a vector of pairs and sort it — Rust's stable
sort by the derived lexicographic pair order, which insertion sort over the
same total order reproduces. -/
def get_sorted_selected_fields (s : Schema) : List (String × String) :=
  List.insertionSort PairLeP (get_query_fields s true)

/-- `get_fields_string` (lines 209-217): the db-name components of the sorted
field pairs, comma-joined. -/
def get_fields_string (s : Schema) : String :=
  String.intercalate ", " ((get_sorted_selected_fields s).map (fun f => f.2))

/-- `add_where_eq` (lines 281-311). The value argument carries the host type
of the Rust type parameter T. The source pattern-matches `get_parameter`'s
result as an `Option` (a stale seam: bigquery_table.rs declares it as a
`Result`); `Ok` is read as `Some`, and a failure falls through to the
`is NULL` branch like `None` would. -/
def add_where_eq (s : Schema) (b : QueryBuilder) (column : String) (ty : FieldType)
    (value : Option HostVal) : RResult QueryBuilder :=
  (get_field_db_name s column).bind (fun col =>
    match value with
    | some v =>
      let param_name := "__PARAM_" ++ natToString b.params.length
      match get_parameter v ty param_name with
      | .ok param =>
        .ok { b with params := b.params ++ [param],
                     where_clauses := b.where_clauses ++ [col ++ " = @" ++ param_name] }
      | .err _ => .ok { b with where_clauses := b.where_clauses ++ [col ++ " is NULL"] }
    | none => .ok { b with where_clauses := b.where_clauses ++ [col ++ " is NULL"] })

/-- `add_field_where` (lines 226-251): resolve the field, fetch its parameter
from the starting record, and push either `db = @name` (recording the
parameter) or `db is NULL`. The typestate guarantees starting data; its
absence is a panic in the model. -/
def add_field_where (s : Schema) (b : QueryBuilder) (field : String) : RResult QueryBuilder :=
  match b.starting_data with
  | none => .err "panic: add_field_where without starting data"
  | some data =>
    (get_field_db_name s field).bind (fun field_db_name =>
      (get_parameter_from_field s data field).bind (fun param =>
        match param with
        | some p =>
          if p.parameterValue.isSome then
            match p.name with
            | some pname =>
              .ok { b with params := b.params ++ [p],
                           where_clauses := b.where_clauses ++ [field_db_name ++ " = @" ++ pname] }
            | none => .err "panic: unwrap of a missing parameter name"
          else .ok { b with where_clauses := b.where_clauses ++ [field_db_name ++ " is NULL"] }
        | none => .ok { b with where_clauses := b.where_clauses ++ [field_db_name ++ " is NULL"] }))

/-- Parameter-folding loop of `add_params_for_table_query_fields`
(lines 253-273): one parameter per field of the starting record, skipping
fields whose parameter name is already present. -/
def add_params_go (s : Schema) (data : TableRec) :
    List (String × String) → List QueryParameter → RResult (List QueryParameter)
  | [], acc => .ok acc
  | (localName, _) :: rest, acc =>
    (get_parameter_from_field s data localName).bind (fun para =>
      match para with
      | some para =>
        if acc.any (fun existing => existing.name = para.name) then add_params_go s data rest acc
        else add_params_go s data rest (acc ++ [para])
      | none => add_params_go s data rest acc)

/-- `add_params_for_table_query_fields`. -/
def add_params_for_table_query_fields (s : Schema) (b : QueryBuilder) : RResult QueryBuilder :=
  match b.starting_data with
  | none => .err "panic: add_params_for_table_query_fields without starting data"
  | some data =>
    (add_params_go s data (get_query_fields s true) b.params).map
      (fun ps => { b with params := ps })

/-- `build_where_string` (lines 323-331). -/
def build_where_string (b : QueryBuilder) : String :=
  if b.where_clauses.isEmpty then "" else " WHERE " ++ String.intercalate " AND " b.where_clauses

/-- Per-entry resolution of `build_order_by_string` (lines 332-346). -/
def order_by_go (s : Schema) : List (String × OrderDirection) → RResult (List String)
  | [] => .ok []
  | (column, direction) :: rest =>
    (get_field_db_name s column).bind (fun col =>
      (order_by_go s rest).map (fun l => (col ++ " " ++ direction.to_query_str) :: l))

/-- `build_order_by_string`. -/
def build_order_by_string (s : Schema) (b : QueryBuilder) : RResult String :=
  if b.order_by.isEmpty then .ok ""
  else (order_by_go s b.order_by).map (fun l => " ORDER BY " ++ String.intercalate ", " l)

/-- `build_limit_string` (lines 347-355). -/
def build_limit_string (b : QueryBuilder) : String :=
  match b.limit with
  | some limit => " LIMIT " ++ natToString limit
  | none => ""

/-- `get_table_identifier_from_client` (bigquery_table.rs lines 145-153). -/
def get_table_identifier_from_client (s : Schema) (c : BigqueryClient) : String :=
  "`" ++ c.projectId ++ "." ++ c.datasetId ++ "." ++ s.tableName ++ "`"

/-- `build_query` for Select (lines 634-660): requires a client (typestate);
emits `SELECT <cols> FROM <ident><where><order><limit>` and marks the builder
built. -/
def build_query_select (s : Schema) (b : QueryBuilder) : RResult QueryBuilder :=
  match b.client with
  | none => .err "panic: build_query without client"
  | some c =>
    let table_identifier := get_table_identifier_from_client s c
    let fields_str := get_fields_string s
    let where_clause := build_where_string b
    (build_order_by_string s b).bind (fun order_by_clause =>
      let limit_clause := build_limit_string b
      .ok { b with
        query := "SELECT " ++ fields_str ++ " FROM " ++ table_identifier ++ where_clause ++
          order_by_clause ++ limit_clause,
        built := true })

/-- The `.name.clone().unwrap()` collection over the parameter list used by
both `get_value_parameter_names` functions (lines 505-509 and 594-598). -/
def param_names_unwrap : List QueryParameter → RResult (List String)
  | [] => .ok []
  | p :: rest =>
    match p.name with
    | some n => (param_names_unwrap rest).map (fun l => n :: l)
    | none => .err "panic: unwrap of a missing parameter name"

/-- Per-field loop of the insert `get_value_parameter_names` (lines 502-534):
`Some(param_name)` when a parameter with that name exists, `None` otherwise. -/
def value_parameter_names_go (s : Schema) (existing : List String) :
    List (String × String) → RResult (List (Option String))
  | [] => .ok []
  | (field, _) :: rest =>
    (get_field_param_name s field).bind (fun param_name =>
      (value_parameter_names_go s existing rest).map
        (fun l => (if existing.contains param_name then some param_name else none) :: l))

/-- `get_value_parameter_names` (insert impl). -/
def get_value_parameter_names (s : Schema) (b : QueryBuilder) : RResult (List (Option String)) :=
  (param_names_unwrap b.params).bind (fun existing =>
    value_parameter_names_go s existing (get_sorted_selected_fields s))

/-- `get_values_params_string` (lines 486-497): `@name` or the literal NULL,
comma-joined. -/
def get_values_params_string (s : Schema) (b : QueryBuilder) : RResult String :=
  (get_value_parameter_names s b).map (fun values =>
    String.intercalate ", " (values.map (fun v =>
      match v with
      | some v => "@" ++ v
      | none => "NULL")))

/-- `build_query` for Insert (lines 452-484): fold the per-field parameters
into the list, then emit `insert into <ident> (<cols>) values(<vals>)`. -/
def build_query_insert (s : Schema) (b : QueryBuilder) : RResult QueryBuilder :=
  match b.client with
  | none => .err "panic: build_query without client"
  | some c =>
    let table_identifier := get_table_identifier_from_client s c
    (add_params_for_table_query_fields s b).bind (fun b1 =>
      let fields := get_fields_string s
      (get_values_params_string s b1).bind (fun values =>
        .ok { b1 with
          query := "insert into " ++ table_identifier ++ " (" ++ fields ++ ") values(" ++
            values ++ ")",
          built := true }))

/-- Per-field loop of the update `get_value_parameter_names` (lines 592-610):
pairs `(db_name, Some param_name | None)`. -/
def update_value_names_go (s : Schema) (existing : List String) :
    List (String × String) → RResult (List (String × Option String))
  | [] => .ok []
  | (field, _) :: rest =>
    (get_field_db_name s field).bind (fun db =>
      (get_field_param_name s field).bind (fun param_name =>
        (update_value_names_go s existing rest).map
          (fun l => (db, if existing.contains param_name then some param_name else none) :: l)))

/-- `get_value_parameter_names` (update impl). -/
def get_update_value_parameter_names (s : Schema) (b : QueryBuilder) :
    RResult (List (String × Option String)) :=
  (param_names_unwrap b.params).bind (fun existing =>
    update_value_names_go s existing (get_sorted_selected_fields s))

/-- `build_update_fields_string` (lines 577-590): `db = @name` or
`db = NULL`, comma-joined. -/
def build_update_fields_string (s : Schema) (b : QueryBuilder) : RResult String :=
  (get_update_value_parameter_names s b).map (fun l =>
    String.intercalate ", " (l.map (fun fp =>
      match fp.2 with
      | some p => fp.1 ++ " = @" ++ p
      | none => fp.1 ++ " = NULL")))

/-- `build_query` for Update (lines 542-575): append the implicit pk WHERE
term when no WHERE clause exists, capture the WHERE string, fold the
per-field parameters, then emit `update <ident> set <fields> <where>`. -/
def build_query_update (s : Schema) (b : QueryBuilder) : RResult QueryBuilder :=
  match b.client with
  | none => .err "panic: build_query without client"
  | some c =>
    let table_identifier := get_table_identifier_from_client s c
    (if b.where_clauses.isEmpty then add_field_where s b s.pkField.localName else .ok b).bind
      (fun b1 =>
        let where_clause := build_where_string b1
        (add_params_for_table_query_fields s b1).bind (fun b2 =>
          (build_update_fields_string s b2).bind (fun fields_str =>
            .ok { b2 with
              query := "update " ++ table_identifier ++ " set " ++ fields_str ++ " " ++
                where_clause,
              built := true })))

/-- `build_query` for Delete (lines 422-449): always appends the pk WHERE
term, then emits `DELETE FROM <ident> <where>`. -/
def build_query_delete (s : Schema) (b : QueryBuilder) : RResult QueryBuilder :=
  match b.client with
  | none => .err "panic: build_query without client"
  | some c =>
    let table_identifier := get_table_identifier_from_client s c
    (add_field_where s b s.pkField.localName).bind (fun b1 =>
      let where_clause := build_where_string b1
      .ok { b1 with
        query := "DELETE FROM " ++ table_identifier ++ " " ++ where_clause,
        built := true })

-- ===========================================================================
-- Query executor (run, lines 716-785) and table facade (get_by_pk)
-- ===========================================================================

/-- A cell of the response row matrix (`TableCell.v`). -/
structure TableCell where
  v : Option Json
  deriving DecidableEq, Repr

/-- A row of the response (`TableRow.f`). -/
structure TableRow where
  f : Option (List TableCell)
  deriving DecidableEq, Repr

/-- The transport's `QueryResponse`, restricted to the fields `run` reads. -/
structure QueryResponse where
  rows : Option (List TableRow)
  totalRows : Option Nat
  deriving DecidableEq, Repr

/-- `QueryResultType` (query_builder.rs lines 42-46). -/
inductive QueryResultType where
  | withRowData (rows : List TableRec)
  | withoutRowData (result : RResult Unit)
  deriving DecidableEq, Repr

/-- `QueryResultType::is_with_row_data`. -/
def QueryResultType.is_with_row_data : QueryResultType → Bool
  | .withRowData _ => true
  | .withoutRowData _ => false

/-- `run_query_with_client` (lines 768-785): the transport call itself is
external, so the HTTP status and the `QueryResponse` are inputs; a status
other than 200 is an error. -/
def run_query_with_client (status : Nat) (resp : QueryResponse) : RResult QueryResponse :=
  if status ≠ 200 then .err ("Wrong status code returned! (" ++ natToString status ++ ")")
  else .ok resp

/-- Rust `HashMap::insert`: replace the value under an existing key,
append otherwise. -/
def mapInsert (m : List (String × Json)) (k : String) (v : Json) : List (String × Json) :=
  if m.any (fun p => p.1 = k) then m.map (fun p => if p.1 = k then (k, v) else p)
  else m ++ [(k, v)]

/-- The per-row cell loop of `run` (lines 750-755): the i-th cell is stored
under the db name of the i-th sorted field (`sorted_fields[i]` panics when
the row has more cells than fields); a missing cell value decodes as JSON
null. -/
def decodeCells (sorted : List (String × String)) :
    Nat → List TableCell → List (String × Json) → RResult (List (String × Json))
  | _, [], m => .ok m
  | i, cell :: rest, m =>
    match sorted.get? i with
    | some pr => decodeCells sorted (i + 1) rest (mapInsert m pr.2 (cell.v.getD Json.null))
    | none => .err "panic: index out of bounds"

/-- The row loop of `run` (lines 748-758): decode each row's cells into a
db-name-keyed map and construct a record from it. -/
def decodeRows (s : Schema) (client : BigqueryClient) (sorted : List (String × String)) :
    List TableRow → RResult (List TableRec)
  | [] => .ok []
  | row :: rest =>
    (decodeCells sorted 0 (row.f.getD []) []).bind (fun m =>
      (new_from_query_result_row s client m).bind (fun r =>
        (decodeRows s client sorted rest).map (fun l => r :: l)))

/-- `run` (lines 719-762) for any built query of any statement kind: ship the
request (the transport's reply is an input), decode the row matrix with the
sorted field list, and wrap the decoded records. Note that the source
returns `WithRowData` on every path. -/
def run (s : Schema) (b : QueryBuilder) (status : Nat) (resp : QueryResponse) :
    RResult QueryResultType :=
  let sorted_fields := get_sorted_selected_fields s
  match b.client with
  | none => .err "panic: run without client"
  | some client =>
    (run_query_with_client status resp).bind (fun query_response =>
      (decodeRows s client sorted_fields (query_response.rows.getD [])).map
        (fun result => QueryResultType.withRowData result))

/-- Rust `Debug` of a `Result<()>`, as interpolated in `get_by_pk`'s
without-data error message. -/
def resultDebug : RResult Unit → String
  | .ok _ => "Ok(())"
  | .err m => "Err(" ++ m ++ ")"

/-- `get_by_pk` (bigquery_table.rs lines 155-191): build a select with
`WHERE pk = pk_value`, run it, and demand exactly one row: zero rows and
multiple rows are errors carrying the pk's db name and Debug-rendered value.
`pkTy` is the Rust type parameter PK. -/
def get_by_pk (s : Schema) (client : BigqueryClient) (pkTy : FieldType) (pk_value : HostVal)
    (status : Nat) (resp : QueryResponse) : RResult TableRec :=
  let pk_field_name := s.pkField.localName
  let pk_db_name := s.pkField.dbName
  (add_where_eq s (with_client QueryBuilder.init client) pk_field_name pkTy
      (some pk_value)).bind (fun b1 =>
    (build_query_select s b1).bind (fun b2 =>
      (run s b2 status resp).bind (fun result =>
        match result with
        | .withoutRowData success =>
          .err ("something went wrong when getting for " ++ pk_field_name ++ " = " ++
            hostDebug pk_value ++ ";\tresult: " ++ resultDebug success)
        | .withRowData rows =>
          match rows with
          | [] => .err ("No entry found for " ++ pk_db_name ++ " = " ++ hostDebug pk_value)
          | [r] => .ok r
          | _ :: _ :: _ =>
            .err ("More than one entry found for " ++ pk_db_name ++ " = " ++
              hostDebug pk_value))))

-- ===========================================================================
-- Shared example data (the DbInfos record type of the crate's test suite)
-- ===========================================================================

/-- The test suite's client (project and dataset ids). -/
def exClient : BigqueryClient := ⟨"testrustproject-372221", "test1"⟩

/-- The test suite's DbInfos record type: table Infos, pk `row_id` renamed to
Id, optional fields with two renames (`info2` to info, `info4b` to yes). -/
def exSchema : Schema :=
  { tableName := "Infos",
    pkField := ⟨"row_id", "Id", .tI64⟩,
    fields := [⟨"row_id", "Id", .tI64⟩, ⟨"info1", "info1", .tOpt .tString⟩,
               ⟨"info2", "info", .tOpt .tString⟩, ⟨"info3", "info3", .tOpt .tString⟩,
               ⟨"info4i", "info4i", .tOpt .tI32⟩, ⟨"info4b", "yes", .tOpt .tBool⟩] }

/-- A DbInfos record with every optional field set. -/
def exRecAllSet : TableRec :=
  ⟨exClient,
   [("row_id", .vI64 1), ("info1", .vSome (.vString "a")), ("info2", .vSome (.vString "b")),
    ("info3", .vSome (.vString "c")), ("info4i", .vSome (.vI32 1)),
    ("info4b", .vSome (.vBool true))]⟩

/-- The sample record of the crate's test1 / scenario S3: `info2` is None. -/
def exRecWithNull : TableRec :=
  ⟨exClient,
   [("row_id", .vI64 1), ("info1", .vSome (.vString "a")), ("info2", .vNone),
    ("info3", .vSome (.vString "c")), ("info4i", .vSome (.vI32 1)),
    ("info4b", .vSome (.vBool true))]⟩

/-- A one-field schema (pk only), small enough for kernel evaluation in the
concrete witnesses. -/
def miniSchema : Schema :=
  { tableName := "T", pkField := ⟨"id", "Id", .tI64⟩, fields := [⟨"id", "Id", .tI64⟩] }

/-- A record of the one-field schema. -/
def miniRec : TableRec := ⟨exClient, [("id", .vI64 7)]⟩

-- ===========================================================================
-- Support lemmas
-- ===========================================================================

theorem RResult.bind_assoc {A B C : Type} (m : RResult A) (f : A → RResult B)
    (g : B → RResult C) : (m.bind f).bind g = m.bind (fun a => (f a).bind g) := by
  cases m <;> rfl

theorem natCharsPad_length_pos (w n : Nat) (hw : 1 ≤ w) : 0 < (natCharsPad w n).length := by
  show 0 < (List.replicate (w - (natChars n).length) '0' ++ natChars n).length
  rw [List.length_append, List.length_replicate]
  omega

theorem natCharsPad_ne_nil (w n : Nat) (hw : 1 ≤ w) : natCharsPad w n ≠ [] := by
  intro h
  have h1 := natCharsPad_length_pos w n hw
  rw [h] at h1
  simp at h1

theorem natCharsPad_all_eq_true (w n : Nat) : (natCharsPad w n).all isDigitAscii = true :=
  List.all_eq_true.mpr (natCharsPad_all_digits w n)

/-- Parsing the decimal rendering of an in-range integer succeeds with the
same integer. -/
theorem parseSignedDec_intToString (posBound : Nat) (n : Int)
    (h1 : -((posBound : Int) + 1) ≤ n) (h2 : n ≤ (posBound : Int)) :
    parseSignedDec posBound (intToString n) = .ok n := by
  by_cases hneg : n < 0
  · have hdata : (intToString n).data = '-' :: natCharsPad 1 n.natAbs := by
      unfold intToString
      rw [if_pos hneg]
    have hne := natCharsPad_ne_nil 1 n.natAbs (by omega)
    have hall := natCharsPad_all_eq_true 1 n.natAbs
    have hle : n.natAbs ≤ posBound + 1 := by omega
    unfold parseSignedDec
    rw [hdata]
    rw [show splitSign ('-' :: natCharsPad 1 n.natAbs) = (true, natCharsPad 1 n.natAbs) by
      simp [splitSign]]
    simp only
    simp [hne, hall, charsVal_natCharsPad, hle]
    rw [abs_of_neg hneg]
    ring
  · have hdata : (intToString n).data = natCharsPad 1 n.natAbs := by
      unfold intToString natToString
      rw [if_neg hneg]
    have hne := natCharsPad_ne_nil 1 n.natAbs (by omega)
    have hall := natCharsPad_all_eq_true 1 n.natAbs
    have hle : n.natAbs ≤ posBound := by omega
    unfold parseSignedDec
    rw [hdata]
    rcases hpad : natCharsPad 1 n.natAbs with _ | ⟨c, cs⟩
    · exact absurd hpad hne
    · have hcdig : isDigitAscii c = true := by
        apply natCharsPad_all_digits 1 n.natAbs
        rw [hpad]
        exact List.mem_cons_self c cs
      rw [show splitSign (c :: cs) = (false, c :: cs) by
        simp [splitSign, digit_ne_of_not_digit c '-' hcdig (by decide),
          digit_ne_of_not_digit c '+' hcdig (by decide)]]
      rw [← hpad]
      simp [hne, hall, charsVal_natCharsPad, hle]
      omega

theorem lookup_cons_self {B : Type} (k : String) (v : B) (l : List (String × B)) :
    List.lookup k ((k, v) :: l) = some v := by
  simp [List.lookup]

/-- Looking the primary key up in `get_query_fields(true)` always yields its
db name: the pk pair is the first map entry. -/
theorem get_field_db_name_pk (s : Schema) :
    get_field_db_name s s.pkField.localName = .ok s.pkField.dbName := by
  unfold get_field_db_name get_query_fields
  rw [if_pos rfl]
  rw [show ([(s.pkField.localName, s.pkField.dbName)] : List (String × String)) ++
      (s.fields.filter (fun f => f.localName ≠ s.pkField.localName)).map
        (fun f => (f.localName, f.dbName))
      = (s.pkField.localName, s.pkField.dbName) ::
        (s.fields.filter (fun f => f.localName ≠ s.pkField.localName)).map
          (fun f => (f.localName, f.dbName)) from rfl]
  rw [lookup_cons_self]

/-- The parameter-folding loop never removes parameters. -/
theorem add_params_go_mem (s : Schema) (data : TableRec) :
    ∀ (l : List (String × String)) (acc ps : List QueryParameter),
      add_params_go s data l acc = .ok ps → ∀ x ∈ acc, x ∈ ps := by
  intro l
  induction l with
  | nil =>
    intro acc ps h x hx
    have h2 : acc = ps := by
      have h3 : RResult.ok acc = RResult.ok ps := h
      cases h3
      rfl
    rw [← h2]
    exact hx
  | cons p rest ih =>
    intro acc ps h x hx
    obtain ⟨localName, db⟩ := p
    unfold add_params_go at h
    cases hp : get_parameter_from_field s data localName with
    | err m => rw [hp] at h; exact absurd h (by simp [RResult.bind])
    | ok para =>
      rw [hp] at h
      cases para with
      | none => exact ih acc ps h x hx
      | some para =>
        simp only [RResult.bind] at h
        by_cases hhas : acc.any (fun existing => existing.name = para.name)
        · rw [if_pos hhas] at h
          exact ih acc ps h x hx
        · rw [if_neg hhas] at h
          exact ih (acc ++ [para]) ps h x (List.mem_append_left _ hx)

/-- An element of a duplicate-free list is not among the elements before it. -/
theorem get_not_mem_take {A : Type} (l : List A) (i : Nat) (x : A)
    (hnd : l.Nodup) (hget : l.get? i = some x) : x ∉ l.take i := by
  intro hmem
  have hsub : (l.take (i + 1)).Nodup := (List.take_sublist (i + 1) l).nodup hnd
  have hget2 : l[i]? = some x := by
    rw [← List.get?_eq_getElem?]
    exact hget
  rw [List.take_succ, hget2] at hsub
  rcases List.nodup_append.mp hsub with ⟨_, _, hdisj⟩
  exact hdisj hmem (by simp)

/-- The key part of the run decode loop: starting from a map whose keys are
the first `i` sorted db names, consuming the remaining cells extends the keys
positionally, in sorted-field order. -/
theorem decodeCells_keys (sorted : List (String × String))
    (hnd : (sorted.map Prod.snd).Nodup) :
    ∀ (cells : List TableCell) (i : Nat) (m m2 : List (String × Json)),
      i + cells.length ≤ sorted.length →
      m.map Prod.fst = (sorted.map Prod.snd).take i →
      decodeCells sorted i cells m = .ok m2 →
      m2.map Prod.fst = (sorted.map Prod.snd).take (i + cells.length) := by
  intro cells
  induction cells with
  | nil =>
    intro i m m2 _ hkeys h
    have h2 : RResult.ok m = RResult.ok m2 := h
    cases h2
    simpa using hkeys
  | cons cell rest ih =>
    intro i m m2 hlen hkeys h
    have hi : i < sorted.length := by
      have := hlen
      simp only [List.length_cons] at this
      omega
    cases hget : sorted.get? i with
    | none => exact absurd (List.get?_eq_none.mp hget) (by omega)
    | some pr =>
      unfold decodeCells at h
      rw [hget] at h
      have h' : decodeCells sorted (i + 1) rest (mapInsert m pr.2 (cell.v.getD Json.null))
          = .ok m2 := h
      clear h
      have hsnd : (sorted.map Prod.snd).get? i = some pr.2 := by
        rw [List.get?_map, hget]
        rfl
      have hnotmem : pr.2 ∉ (sorted.map Prod.snd).take i :=
        get_not_mem_take _ i pr.2 hnd hsnd
      have hnokey : m.any (fun p => p.1 = pr.2) = false := by
        rw [Bool.eq_false_iff]
        intro hany
        rcases List.any_eq_true.mp hany with ⟨p, hp, hpk⟩
        have : p.1 ∈ m.map Prod.fst := List.mem_map_of_mem Prod.fst hp
        rw [hkeys] at this
        rw [show p.1 = pr.2 from by simpa using hpk] at this
        exact hnotmem this
      have hinsert : mapInsert m pr.2 (cell.v.getD Json.null)
          = m ++ [(pr.2, cell.v.getD Json.null)] := by
        unfold mapInsert
        rw [hnokey]
        simp
      rw [hinsert] at h'
      have hkeys2 : (m ++ [(pr.2, cell.v.getD Json.null)]).map Prod.fst
          = (sorted.map Prod.snd).take (i + 1) := by
        rw [List.map_append, hkeys, List.take_succ]
        have hsnd2 : (sorted.map Prod.snd)[i]? = some pr.2 := by
          rw [← List.get?_eq_getElem?]
          exact hsnd
        rw [hsnd2]
        rfl
      have := ih (i + 1) _ m2 (by simp only [List.length_cons] at hlen; omega) hkeys2 h'
      rw [this]
      congr 1
      simp only [List.length_cons]
      omega

/-- Rewriting the entries under one key leaves every other key's lookup
unchanged. -/
theorem lookup_map_update_ne {B : Type} (l : List (String × B)) (field k : String) (hv : B)
    (hk : k ≠ field) :
    (l.map (fun p => if p.1 = field then (p.1, hv) else p)).lookup k = l.lookup k := by
  induction l with
  | nil => rfl
  | cons p rest ih =>
    obtain ⟨a, b⟩ := p
    by_cases ha : a = field
    · subst ha
      simp only [List.map_cons, if_pos rfl]
      simp [List.lookup, beq_eq_false_iff_ne.mpr hk, ih]
    · simp only [List.map_cons, if_neg ha]
      by_cases hka : k = a
      · subst hka
        simp [List.lookup]
      · simp [List.lookup, beq_eq_false_iff_ne.mpr hka, ih]

/-- `set_field_value` never touches the client and only rewrites entries
under the targeted local name. -/
theorem set_field_value_frame (s : Schema) (r : TableRec) (field_name : String) (value : Json)
    (r2 : TableRec) (h : set_field_value s r field_name value = .ok r2) :
    r2.client = r.client ∧ ∀ k, k ≠ field_name → r2.vals.lookup k = r.vals.lookup k := by
  unfold set_field_value at h
  cases hf : s.fields.find? (fun f => f.localName = field_name) with
  | none => rw [hf] at h; exact absurd h (by simp)
  | some f =>
    rw [hf] at h
    have h3 : (fromParamTy f.ty value).map
        (fun hv => (⟨r.client, r.vals.map
          (fun p => if p.1 = field_name then (p.1, hv) else p)⟩ : TableRec)) = .ok r2 := h
    cases hfp : fromParamTy f.ty value with
    | err m => rw [hfp] at h3; exact absurd h3 (by simp [RResult.map])
    | ok hv =>
      rw [hfp] at h3
      have h4 : RResult.ok (⟨r.client, r.vals.map
          (fun p => if p.1 = field_name then (p.1, hv) else p)⟩ : TableRec) = .ok r2 := h3
      cases h4
      exact ⟨rfl, fun k hk => lookup_map_update_ne r.vals field_name k hv hk⟩

/-- `update_from`'s iteration preserves the client and every entry outside
the iterated local names, whether or not it fails part-way. -/
theorem update_from_go_frame (s : Schema) (other : TableRec) :
    ∀ (l : List (String × String)) (self : TableRec),
      (update_from_go s other l self).1.client = self.client ∧
      ∀ k, k ∉ l.map Prod.fst →
        (update_from_go s other l self).1.vals.lookup k = self.vals.lookup k := by
  intro l
  induction l with
  | nil => intro self; exact ⟨rfl, fun _ _ => rfl⟩
  | cons p rest ih =>
    intro self
    obtain ⟨localName, db⟩ := p
    cases hg : get_field_value s other localName with
    | err m =>
      simp [update_from_go, hg]
    | ok v =>
      cases hs : set_field_value s self localName v with
      | err m =>
        simp [update_from_go, hg, hs]
      | ok r2 =>
        simp only [update_from_go, hg, hs]
        obtain ⟨hc, hk⟩ := set_field_value_frame s self localName v r2 hs
        refine ⟨?_, ?_⟩
        · rw [(ih r2).1, hc]
        · intro k hkmem
          have hk1 : k ≠ localName := by
            intro hcon
            exact hkmem (by rw [hcon]; exact List.mem_cons_self _ _)
          have hk2 : k ∉ rest.map Prod.fst := by
            intro hcon
            exact hkmem (List.mem_cons_of_mem _ hcon)
          rw [(ih r2).2 k hk2, hk k hk1]

-- ===========================================================================
-- Claim theorems
-- ===========================================================================

/-- The ordered db-name column list a SELECT emits (the list
`get_fields_string` joins with ", "). -/
def selectColumnsEmitted (s : Schema) : List String :=
  (get_sorted_selected_fields s).map (fun f => f.2)

/-- C9: for every built builder, `un_build` transitions it to not-built while
leaving all accumulated state unchanged: client, query string, parameter
list, WHERE clauses, ORDER BY list, limit and starting data are identical
before and after. -/
theorem c9_un_build_preserves_state (b : QueryBuilder) :
    (un_build b).client = b.client ∧ (un_build b).query = b.query ∧
    (un_build b).params = b.params ∧ (un_build b).where_clauses = b.where_clauses ∧
    (un_build b).order_by = b.order_by ∧ (un_build b).limit = b.limit ∧
    (un_build b).starting_data = b.starting_data ∧ (un_build b).built = false :=
  ⟨rfl, rfl, rfl, rfl, rfl, rfl, rfl, rfl⟩

/-- A schema exhibiting the gap between the two ordering rules: the pk's
local name `a` maps to db name `z`, and local `b` maps to db name `a`. -/
def c2Schema : Schema :=
  { tableName := "T2", pkField := ⟨"a", "z", .tI64⟩,
    fields := [⟨"a", "z", .tI64⟩, ⟨"b", "a", .tOpt .tString⟩] }

/-- C2 counterexample: on `c2Schema` the emitted SELECT column list is
[z, a] — the db names ordered by local name — which is not sorted
lexicographically by db name, refuting the claim as stated. -/
theorem c2_counterexample :
    selectColumnsEmitted c2Schema = ["z", "a"] ∧
    ¬ List.Pairwise (fun x y : String => charListLe x.data y.data = true)
        (selectColumnsEmitted c2Schema) := by
  constructor
  · decide
  · decide

/-- C2 (amended): the column list emitted by `build_query` for a Select
consists of every non-client, non-ignored field's db_name (a permutation of
the `get_query_fields(true)` db names), ordered by sorting the
(local_name, db_name) pairs lexicographically — i.e. by local name, since
local names are distinct — and the emitted columns string joins exactly that
list with ", ". -/
theorem c2_select_columns_sorted_by_local_name (s : Schema) :
    (selectColumnsEmitted s).Perm ((get_query_fields s true).map (fun f => f.2)) ∧
    List.Pairwise PairLeP (get_sorted_selected_fields s) ∧
    get_fields_string s = String.intercalate ", " (selectColumnsEmitted s) := by
  refine ⟨?_, ?_, rfl⟩
  · exact List.Perm.map _ (List.perm_insertionSort PairLeP (get_query_fields s true))
  · exact List.sorted_insertionSort PairLeP (get_query_fields s true)

/-- C3: the ordered column list used to emit a SELECT's column clause is the
very list `run()` zips against each response row's cell vector: the fields
string joins the db components of `get_sorted_selected_fields`, and decoding
a row stores the i-th cell under the i-th entry of that same list, so the
decoded keys are an initial segment of the emitted column list (given the
schema invariant that db names are distinct). -/
theorem c3_select_and_decode_columns_agree :
    (∀ s : Schema, get_fields_string s = String.intercalate ", " (selectColumnsEmitted s)) ∧
    (∀ (s : Schema) (cells : List TableCell) (m : List (String × Json)),
      ((get_sorted_selected_fields s).map Prod.snd).Nodup →
      cells.length ≤ (get_sorted_selected_fields s).length →
      decodeCells (get_sorted_selected_fields s) 0 cells [] = .ok m →
      m.map Prod.fst = (selectColumnsEmitted s).take cells.length) := by
  refine ⟨fun s => rfl, fun s cells m hnd hlen h => ?_⟩
  have h2 := decodeCells_keys (get_sorted_selected_fields s) hnd cells 0 [] m
    (by simpa using hlen) (by simp) h
  simpa using h2

/-- C3 witness: a concrete two-cell row decodes under the first two emitted
columns of the DbInfos schema, in order. -/
theorem c3_witness :
    ((get_sorted_selected_fields exSchema).map Prod.snd).Nodup ∧
    ([(⟨some (.str "9")⟩ : TableCell), ⟨none⟩] : List TableCell).length ≤
      (get_sorted_selected_fields exSchema).length ∧
    decodeCells (get_sorted_selected_fields exSchema) 0 [⟨some (.str "9")⟩, ⟨none⟩] []
      = .ok [("info1", .str "9"), ("info", .null)] ∧
    ([("info1", Json.str "9"), ("info", Json.null)].map Prod.fst
      = (selectColumnsEmitted exSchema).take 2) :=
  ⟨by decide, by decide, by decide,
    c3_select_and_decode_columns_agree.2 exSchema [⟨some (.str "9")⟩, ⟨none⟩]
      [("info1", .str "9"), ("info", .null)] (by decide) (by decide) (by decide)⟩

/-- The derive input refuting the duplicate-db-name part of C8: one pk field
and one other field share the db name x, plus a client field. -/
def c8Fields : List RawField :=
  [⟨"id", "x", true, false, false⟩, ⟨"other", "x", false, false, false⟩,
   ⟨"client", "client", false, true, false⟩]

/-- C8 counterexample: the derive checks accept a record whose db names are
duplicated, refuting the claim that duplicate db_name values fail
compilation. -/
theorem c8_counterexample :
    impl_big_query_table_derive c8Fields = .ok () ∧
    ¬ (c8Fields.map (fun f => f.dbName)).Nodup := by
  constructor
  · decide
  · decide

/-- C8 (amended): the derive generator rejects (panics on) exactly the
records that do not have exactly one primary-key field or not exactly one
client field; duplicate db names are not checked. -/
theorem c8_derive_checks_pk_and_client_only (fs : List RawField) :
    impl_big_query_table_derive fs = .ok () ↔
      (fs.filter (fun f => f.isPk)).length = 1 ∧
      (fs.filter (fun f => f.isClient)).length = 1 := by
  unfold impl_big_query_table_derive get_pk_field get_client_field
  constructor
  · intro h
    cases hp : fs.filter (fun f => f.isPk) with
    | nil => rw [hp] at h; exact absurd h (by simp [RResult.bind])
    | cons p ptail =>
      cases ptail with
      | cons q qtail => rw [hp] at h; exact absurd h (by simp [RResult.bind])
      | nil =>
        rw [hp] at h
        cases hc : fs.filter (fun f => f.isClient) with
        | nil => rw [hc] at h; exact absurd h (by simp [RResult.bind])
        | cons c ctail =>
          cases ctail with
          | cons d dtail => rw [hc] at h; exact absurd h (by simp [RResult.bind])
          | nil => exact ⟨rfl, rfl⟩
  · intro ⟨h1, h2⟩
    rcases List.length_eq_one.mp h1 with ⟨p, hp⟩
    rcases List.length_eq_one.mp h2 with ⟨c, hc⟩
    rw [hp, hc]
    rfl

/-- C10: `update_from` leaves the client untouched: the result's client
equals the original client, and every key outside the copied query fields
(the non-client, non-ignored locals including the pk) keeps its value —
whether or not the copy fails part-way. -/
theorem c10_update_from_preserves_client (s : Schema) (self other : TableRec) :
    (update_from s self other).1.client = self.client ∧
    ∀ k, k ∉ (get_query_fields s true).map Prod.fst →
      (update_from s self other).1.vals.lookup k = self.vals.lookup k := by
  unfold update_from
  exact update_from_go_frame s other (get_query_fields s true) self

/-- C10 witness: on the DbInfos records, `update_from` keeps the client and
an unrelated key unchanged. -/
theorem c10_witness :
    (update_from exSchema exRecAllSet exRecWithNull).1.client = exRecAllSet.client ∧
    (update_from exSchema exRecAllSet exRecWithNull).1.vals.lookup "zzz"
      = exRecAllSet.vals.lookup "zzz" :=
  ⟨(c10_update_from_preserves_client exSchema exRecAllSet exRecWithNull).1,
   (c10_update_from_preserves_client exSchema exRecAllSet exRecWithNull).2 "zzz" (by decide)⟩

/-- C1 (code bug): `run` wraps the decoded rows in `WithRowData` on every
successful path, for every statement kind — the `WithoutRowData` variant is
never constructed. In particular a built Insert whose response carries no
row matrix runs to `WithRowData([])`, where the claim (and the crate's own
`upsert` and `test_upsert`, which expect without-data results for
insert/delete) demands `WithoutRowData`. -/
theorem c1_run_always_with_row_data :
    ((build_query_insert exSchema
        (set_data (with_client QueryBuilder.init exClient) exRecAllSet)).bind
      (fun b => run exSchema b 200 ⟨none, some 0⟩) = .ok (.withRowData [])) ∧
    (∀ (s : Schema) (b : QueryBuilder) (status : Nat) (resp : QueryResponse)
        (res : QueryResultType),
      run s b status resp = .ok res → res.is_with_row_data = true) := by
  constructor
  · decide
  · intro s b status resp res h
    unfold run at h
    cases hb : b.client with
    | none =>
      rw [hb] at h
      exact absurd h (by simp)
    | some client =>
      rw [hb] at h
      have h1 : (run_query_with_client status resp).bind (fun query_response =>
          (decodeRows s client (get_sorted_selected_fields s)
            (query_response.rows.getD [])).map
            (fun result => QueryResultType.withRowData result)) = .ok res := h
      cases hq : run_query_with_client status resp with
      | err m => rw [hq] at h1; exact absurd h1 (by simp [RResult.bind])
      | ok qr =>
        rw [hq] at h1
        have h2 : (decodeRows s client (get_sorted_selected_fields s) (qr.rows.getD [])).map
            (fun result => QueryResultType.withRowData result) = .ok res := h1
        cases hd : decodeRows s client (get_sorted_selected_fields s) (qr.rows.getD []) with
        | err m => rw [hd] at h2; exact absurd h2 (by simp [RResult.map])
        | ok l =>
          rw [hd] at h2
          have h3 : RResult.ok (QueryResultType.withRowData l) = RResult.ok res := h2
          cases h3
          rfl

/-- C1 witness: a select run with an empty response also produces
`WithRowData([])`, discharging the general lemma at a concrete input. -/
theorem c1_witness :
    run exSchema (with_client QueryBuilder.init exClient) 200 ⟨none, none⟩
      = .ok (.withRowData []) ∧
    (QueryResultType.withRowData ([] : List TableRec)).is_with_row_data = true :=
  ⟨by decide,
   c1_run_always_with_row_data.2 exSchema (with_client QueryBuilder.init exClient) 200
     ⟨none, none⟩ (.withRowData []) (by decide)⟩

/-- C5 (code bug): building an INSERT from the crate's own sample record
(`info2 = None`, test1 / scenario S3) panics at the `todo!()` in
`get_parameter` — reached whenever a field value converts to JSON null —
instead of emitting the literal NULL with no parameter for the null field as
the claim (and the crate's doc comment on `get_value_parameter_names`)
states. -/
theorem c5_insert_null_field_panics :
    build_query_insert exSchema
        (set_data (with_client QueryBuilder.init exClient) exRecWithNull)
      = .err "panic: todo! a parameter value probably of sort null is not yet implemented" := by
  decide

theorem pk_where_term_eq (x : String) :
    x ++ " = @" ++ ("__PARAM_" ++ x) = x ++ " = @__PARAM_" ++ x := by
  rw [String.append_assoc, ← String.append_assoc " = @" "__PARAM_" x, ← String.append_assoc]
  rfl

/-- The generated `get_parameter_from_field` never yields `Ok(None)`: its
only success path wraps a `get_parameter` result in `Some`. -/
theorem get_parameter_from_field_not_none (s : Schema) (r : TableRec) (f : String) :
    get_parameter_from_field s r f ≠ .ok none := by
  unfold get_parameter_from_field
  cases hf : s.fields.find? (fun fd => fd.localName = f) with
  | none => simp
  | some fd =>
    cases hpn : get_field_param_name s f with
    | err m => simp [RResult.bind, hpn]
    | ok pname =>
      simp only [RResult.bind, hpn]
      cases hgp : get_parameter (recGet r f) fd.ty pname with
      | err m => simp [RResult.map]
      | ok q => simp [RResult.map]

/-- Shape of a successfully-fetched pk parameter: named `__PARAM_<pk_db>`,
its value the string conversion of the record's pk value. -/
theorem get_parameter_from_field_pk_shape (s : Schema) (r : TableRec) (p : QueryParameter)
    (h : get_parameter_from_field s r s.pkField.localName = .ok (some p)) :
    ∃ v ty, convert_value_to_string (hostToParam (recGet r s.pkField.localName)) = .ok v ∧
      p = ⟨some ("__PARAM_" ++ s.pkField.dbName), some ⟨some ty⟩, some ⟨some v⟩⟩ := by
  unfold get_parameter_from_field at h
  cases hf : s.fields.find? (fun fd => fd.localName = s.pkField.localName) with
  | none => rw [hf] at h; exact absurd h (by simp)
  | some fd =>
    rw [hf] at h
    have hpn : get_field_param_name s s.pkField.localName
        = .ok ("__PARAM_" ++ s.pkField.dbName) := by
      unfold get_field_param_name
      rw [get_field_db_name_pk]
      rfl
    rw [hpn] at h
    have h1 : ((match convert_value_to_string (hostToParam (recGet r s.pkField.localName)) with
        | RResult.ok s1 =>
          RResult.ok (⟨some ("__PARAM_" ++ s.pkField.dbName),
            some ⟨some (convert_type_to_bigquery_type fd.ty)⟩,
            some ⟨some s1⟩⟩ : QueryParameter)
        | RResult.err _ =>
          RResult.err
            "panic: todo! a parameter value probably of sort null is not yet implemented").map
        some : RResult (Option QueryParameter)) = .ok (some p) := h
    cases hcv : convert_value_to_string (hostToParam (recGet r s.pkField.localName)) with
    | err m => rw [hcv] at h1; exact absurd h1 (by simp [RResult.map])
    | ok v =>
      rw [hcv] at h1
      have h2 : RResult.ok (some (⟨some ("__PARAM_" ++ s.pkField.dbName),
          some ⟨some (convert_type_to_bigquery_type fd.ty)⟩, some ⟨some v⟩⟩ : QueryParameter))
          = .ok (some p) := h1
      cases h2
      exact ⟨v, convert_type_to_bigquery_type fd.ty, rfl, rfl⟩

/-- C6: an UPDATE built from a starting record with no explicit WHERE clause
carries exactly one WHERE term, `pk_db = @__PARAM_<pk_db>`, and its parameter
list contains the parameter of that name whose value is the starting
record's primary-key value (string-converted). -/
theorem c6_update_implicit_pk_where (s : Schema) (c : BigqueryClient) (r : TableRec)
    (b2 : QueryBuilder)
    (h : build_query_update s (set_data (with_client QueryBuilder.init c) r) = .ok b2) :
    b2.where_clauses = [s.pkField.dbName ++ " = @__PARAM_" ++ s.pkField.dbName] ∧
    ∃ p ∈ b2.params, p.name = some ("__PARAM_" ++ s.pkField.dbName) ∧
      ∃ v, convert_value_to_string (hostToParam (recGet r s.pkField.localName)) = .ok v ∧
        p.parameterValue = some (⟨some v⟩ : QueryParameterValue) := by
  unfold build_query_update at h
  have h1 : (add_field_where s (set_data (with_client QueryBuilder.init c) r)
      s.pkField.localName).bind (fun b1 =>
        (add_params_for_table_query_fields s b1).bind (fun b2x =>
          (build_update_fields_string s b2x).bind (fun fields_str =>
            .ok { b2x with query := "update " ++ get_table_identifier_from_client s c ++
              " set " ++ fields_str ++ " " ++ build_where_string b1, built := true }))) =
      .ok b2 := h
  clear h
  cases haf : add_field_where s (set_data (with_client QueryBuilder.init c) r)
      s.pkField.localName with
  | err m => rw [haf] at h1; exact absurd h1 (by simp [RResult.bind])
  | ok b1 =>
    rw [haf] at h1
    unfold add_field_where at haf
    have haf1 : (get_field_db_name s s.pkField.localName).bind (fun field_db_name =>
        (get_parameter_from_field s r s.pkField.localName).bind (fun param =>
          match param with
          | some p =>
            if p.parameterValue.isSome then
              match p.name with
              | some pname =>
                .ok { set_data (with_client QueryBuilder.init c) r with
                      params := (set_data (with_client QueryBuilder.init c) r).params ++ [p],
                      where_clauses := (set_data (with_client QueryBuilder.init c)
                        r).where_clauses ++ [field_db_name ++ " = @" ++ pname] }
              | none => .err "panic: unwrap of a missing parameter name"
            else .ok { set_data (with_client QueryBuilder.init c) r with
                  where_clauses := (set_data (with_client QueryBuilder.init c)
                    r).where_clauses ++ [field_db_name ++ " is NULL"] }
          | none => .ok { set_data (with_client QueryBuilder.init c) r with
                where_clauses := (set_data (with_client QueryBuilder.init c)
                  r).where_clauses ++ [field_db_name ++ " is NULL"] })) = .ok b1 := haf
    clear haf
    rw [get_field_db_name_pk] at haf1
    cases hpf : get_parameter_from_field s r s.pkField.localName with
    | err m => rw [hpf] at haf1; exact absurd haf1 (by simp [RResult.bind])
    | ok param =>
      rw [hpf] at haf1
      cases param with
      | none => exact absurd hpf (get_parameter_from_field_not_none s r s.pkField.localName)
      | some p =>
        rcases get_parameter_from_field_pk_shape s r p hpf with ⟨v, ty, hcv, hp⟩
        subst hp
        have haf2 : RResult.ok
            (⟨some c, "", [(⟨some ("__PARAM_" ++ s.pkField.dbName), some ⟨some ty⟩,
              some ⟨some v⟩⟩ : QueryParameter)],
              [s.pkField.dbName ++ " = @" ++ ("__PARAM_" ++ s.pkField.dbName)],
              [], none, some r, false⟩ : QueryBuilder) = .ok b1 := haf1
        cases haf2
        have h1A : (add_params_for_table_query_fields s
            (⟨some c, "", [(⟨some ("__PARAM_" ++ s.pkField.dbName), some ⟨some ty⟩,
              some ⟨some v⟩⟩ : QueryParameter)],
              [s.pkField.dbName ++ " = @" ++ ("__PARAM_" ++ s.pkField.dbName)],
              [], none, some r, false⟩ : QueryBuilder)).bind (fun b2x =>
            (build_update_fields_string s b2x).bind (fun fields_str =>
              .ok ⟨b2x.client, "update " ++ get_table_identifier_from_client s c ++ " set " ++
                fields_str ++ " " ++ build_where_string
                  (⟨some c, "", [(⟨some ("__PARAM_" ++ s.pkField.dbName), some ⟨some ty⟩,
                    some ⟨some v⟩⟩ : QueryParameter)],
                    [s.pkField.dbName ++ " = @" ++ ("__PARAM_" ++ s.pkField.dbName)],
                    [], none, some r, false⟩ : QueryBuilder),
                b2x.params, b2x.where_clauses, b2x.order_by, b2x.limit, b2x.starting_data,
                true⟩)) = .ok b2 := h1
        clear h1
        have hap1 : (add_params_go s r (get_query_fields s true)
            [(⟨some ("__PARAM_" ++ s.pkField.dbName), some ⟨some ty⟩,
              some ⟨some v⟩⟩ : QueryParameter)]).map
            (fun ps => (⟨some c, "", ps,
              [s.pkField.dbName ++ " = @" ++ ("__PARAM_" ++ s.pkField.dbName)],
              [], none, some r, false⟩ : QueryBuilder))
            = add_params_for_table_query_fields s
              (⟨some c, "", [(⟨some ("__PARAM_" ++ s.pkField.dbName), some ⟨some ty⟩,
                some ⟨some v⟩⟩ : QueryParameter)],
                [s.pkField.dbName ++ " = @" ++ ("__PARAM_" ++ s.pkField.dbName)],
                [], none, some r, false⟩ : QueryBuilder) := rfl
        cases hgo : add_params_go s r (get_query_fields s true)
            [(⟨some ("__PARAM_" ++ s.pkField.dbName), some ⟨some ty⟩,
              some ⟨some v⟩⟩ : QueryParameter)] with
        | err m =>
          rw [← hap1, hgo] at h1A
          exact absurd h1A (by simp [RResult.map, RResult.bind])
        | ok ps =>
          rw [← hap1, hgo] at h1A
          have h1B : (build_update_fields_string s (⟨some c, "", ps,
              [s.pkField.dbName ++ " = @" ++ ("__PARAM_" ++ s.pkField.dbName)],
              [], none, some r, false⟩ : QueryBuilder)).bind (fun fields_str =>
            .ok (⟨some c, "update " ++ get_table_identifier_from_client s c ++ " set " ++
                fields_str ++ " " ++ build_where_string
                  (⟨some c, "", [(⟨some ("__PARAM_" ++ s.pkField.dbName), some ⟨some ty⟩,
                    some ⟨some v⟩⟩ : QueryParameter)],
                    [s.pkField.dbName ++ " = @" ++ ("__PARAM_" ++ s.pkField.dbName)],
                    [], none, some r, false⟩ : QueryBuilder),
                ps, [s.pkField.dbName ++ " = @" ++ ("__PARAM_" ++ s.pkField.dbName)],
                [], none, some r, true⟩ : QueryBuilder)) = .ok b2 := h1A
          clear h1A
          cases hbf : build_update_fields_string s (⟨some c, "", ps,
              [s.pkField.dbName ++ " = @" ++ ("__PARAM_" ++ s.pkField.dbName)],
              [], none, some r, false⟩ : QueryBuilder) with
          | err m => rw [hbf] at h1B; exact absurd h1B (by simp [RResult.bind])
          | ok fields_str =>
            rw [hbf] at h1B
            have h2 : RResult.ok (⟨some c,
                "update " ++ get_table_identifier_from_client s c ++ " set " ++
                  fields_str ++ " " ++ build_where_string
                    (⟨some c, "", [(⟨some ("__PARAM_" ++ s.pkField.dbName), some ⟨some ty⟩,
                      some ⟨some v⟩⟩ : QueryParameter)],
                      [s.pkField.dbName ++ " = @" ++ ("__PARAM_" ++ s.pkField.dbName)],
                      [], none, some r, false⟩ : QueryBuilder),
                ps, [s.pkField.dbName ++ " = @" ++ ("__PARAM_" ++ s.pkField.dbName)],
                [], none, some r, true⟩ : QueryBuilder) = .ok b2 := h1B
            cases h2
            refine ⟨?_, ?_⟩
            · show [s.pkField.dbName ++ " = @" ++ ("__PARAM_" ++ s.pkField.dbName)] = _
              rw [pk_where_term_eq]
            · refine ⟨⟨some ("__PARAM_" ++ s.pkField.dbName), some ⟨some ty⟩,
                some ⟨some v⟩⟩, ?_, rfl, v, hcv, rfl⟩
              show _ ∈ ps
              exact add_params_go_mem s r (get_query_fields s true) _ ps hgo _
                (List.mem_singleton_self _)

/-- The builder that building an update over `miniSchema` from `miniRec`
produces. -/
def c6BuiltEx : QueryBuilder :=
  ⟨some exClient,
   "update `testrustproject-372221.test1.T` set Id = @__PARAM_Id  WHERE Id = @__PARAM_Id",
   [⟨some "__PARAM_Id", some ⟨some "INT64"⟩, some ⟨some "7"⟩⟩],
   ["Id = @__PARAM_Id"], [], none, some miniRec, true⟩

/-- C6 witness: the one-field schema's update builds successfully and carries
exactly the implicit pk WHERE term and its parameter. -/
theorem c6_witness :
    build_query_update miniSchema (set_data (with_client QueryBuilder.init exClient) miniRec)
      = .ok c6BuiltEx ∧
    (c6BuiltEx.where_clauses
        = [miniSchema.pkField.dbName ++ " = @__PARAM_" ++ miniSchema.pkField.dbName] ∧
      ∃ p ∈ c6BuiltEx.params, p.name = some ("__PARAM_" ++ miniSchema.pkField.dbName) ∧
        ∃ v, convert_value_to_string
              (hostToParam (recGet miniRec miniSchema.pkField.localName)) = .ok v ∧
          p.parameterValue = some (⟨some v⟩ : QueryParameterValue)) :=
  ⟨by decide,
   c6_update_implicit_pk_where miniSchema exClient miniRec c6BuiltEx (by decide)⟩

/-- C7: `get_by_pk` builds a select whose single WHERE term is
`pk_db = @__PARAM_0` with the pk value as its parameter (second conjunct),
runs it, and then demands exactly one row: with rows decoded from the
response it returns the single record, errors with
"No entry found for pk_db = pk" on zero rows, and errors on more than one
row (first conjunct). -/
theorem c7_get_by_pk_cardinality :
    (∀ (s : Schema) (c : BigqueryClient) (pkTy : FieldType) (pkv : HostVal)
        (status : Nat) (resp : QueryResponse) (rows : List TableRec),
      (add_where_eq s (with_client QueryBuilder.init c) s.pkField.localName pkTy
          (some pkv)).bind (fun b1 =>
        (build_query_select s b1).bind (fun b2 => run s b2 status resp))
        = .ok (.withRowData rows) →
      get_by_pk s c pkTy pkv status resp = (match rows with
        | [] => .err ("No entry found for " ++ s.pkField.dbName ++ " = " ++ hostDebug pkv)
        | [r] => .ok r
        | _ :: _ :: _ =>
          .err ("More than one entry found for " ++ s.pkField.dbName ++ " = " ++
            hostDebug pkv))) ∧
    (∀ (s : Schema) (c : BigqueryClient) (pkTy : FieldType) (pkv : HostVal) (v : String),
      convert_value_to_string (hostToParam pkv) = .ok v →
      add_where_eq s (with_client QueryBuilder.init c) s.pkField.localName pkTy (some pkv)
        = .ok ⟨some c, "",
            [⟨some "__PARAM_0", some ⟨some (convert_type_to_bigquery_type pkTy)⟩,
              some ⟨some v⟩⟩],
            [s.pkField.dbName ++ " = @__PARAM_0"], [], none, none, false⟩) := by
  constructor
  · intro s c pkTy pkv status resp rows h
    cases ha : add_where_eq s (with_client QueryBuilder.init c) s.pkField.localName pkTy
        (some pkv) with
    | err m => rw [ha] at h; exact absurd h (by simp [RResult.bind])
    | ok b1 =>
      rw [ha] at h
      have h1 : (build_query_select s b1).bind (fun b2 => run s b2 status resp)
          = .ok (.withRowData rows) := h
      cases hb : build_query_select s b1 with
      | err m => rw [hb] at h1; exact absurd h1 (by simp [RResult.bind])
      | ok b2 =>
        rw [hb] at h1
        have h2 : run s b2 status resp = .ok (.withRowData rows) := h1
        unfold get_by_pk
        simp only [ha, hb, h2, RResult.bind]
  · intro s c pkTy pkv v hv
    unfold add_where_eq
    rw [get_field_db_name_pk]
    have hgp : get_parameter pkv pkTy "__PARAM_0"
        = .ok ⟨some "__PARAM_0", some ⟨some (convert_type_to_bigquery_type pkTy)⟩,
            some ⟨some v⟩⟩ := by
      show (match convert_value_to_string (hostToParam pkv) with
        | RResult.ok s1 =>
          RResult.ok (⟨some "__PARAM_0",
            some ⟨some (convert_type_to_bigquery_type pkTy)⟩,
            some ⟨some s1⟩⟩ : QueryParameter)
        | RResult.err _ =>
          RResult.err
            "panic: todo! a parameter value probably of sort null is not yet implemented") = _
      rw [hv]
    show (match get_parameter pkv pkTy "__PARAM_0" with
      | RResult.ok param =>
        (RResult.ok (⟨some c, "", [param],
          [s.pkField.dbName ++ " = @" ++ "__PARAM_0"], [], none, none, false⟩ : QueryBuilder))
      | RResult.err _ =>
        RResult.ok (⟨some c, "", [],
          [s.pkField.dbName ++ " is NULL"], [], none, none, false⟩ : QueryBuilder)) = _
    rw [hgp]
    rw [show s.pkField.dbName ++ " = @" ++ "__PARAM_0" = s.pkField.dbName ++ " = @__PARAM_0"
      from by rw [String.append_assoc]; rfl]

/-- C7 witness: on the one-field schema, a single-row response yields the
decoded record, and the built select's WHERE carries the pk parameter. -/
theorem c7_witness :
    ((add_where_eq miniSchema (with_client QueryBuilder.init exClient)
        miniSchema.pkField.localName .tI64 (some (.vI64 7))).bind (fun b1 =>
      (build_query_select miniSchema b1).bind (fun b2 =>
        run miniSchema b2 200 ⟨some [⟨some [⟨some (.str "7")⟩]⟩], some 1⟩))
      = .ok (.withRowData [miniRec])) ∧
    get_by_pk miniSchema exClient .tI64 (.vI64 7) 200
      ⟨some [⟨some [⟨some (.str "7")⟩]⟩], some 1⟩ = .ok miniRec ∧
    convert_value_to_string (hostToParam (.vI64 7)) = .ok "7" ∧
    add_where_eq miniSchema (with_client QueryBuilder.init exClient)
        miniSchema.pkField.localName .tI64 (some (.vI64 7))
      = .ok ⟨some exClient, "",
          [⟨some "__PARAM_0", some ⟨some "INT64"⟩, some ⟨some "7"⟩⟩],
          [miniSchema.pkField.dbName ++ " = @__PARAM_0"], [], none, none, false⟩ :=
  ⟨by decide,
   c7_get_by_pk_cardinality.1 miniSchema exClient .tI64 (.vI64 7) 200
     ⟨some [⟨some [⟨some (.str "7")⟩]⟩], some 1⟩ [miniRec] (by decide),
   by decide,
   c7_get_by_pk_cardinality.2 miniSchema exClient .tI64 (.vI64 7) "7" (by decide)⟩

/-- C4 counterexample: at the 64-bit integer 7, `to_param` produces a JSON
number and `from_param` rejects any non-string JSON value, so the round-trip
fails — refuting both the integer round-trip and the tolerance for input
arriving as a JSON number. -/
theorem c4_counterexample :
    i64_to_param 7 = Json.num (JNum.int 7) ∧
    i64_from_param (i64_to_param 7) = .err "invalid type: expected a string" := by
  constructor
  · rfl
  · rfl

/-- C4 (amended): `from_param(to_param(v)) = v` holds for booleans, strings,
finite 64-bit floats and optionals (null round-trips without consulting the
inner codec, and a set optional round-trips through the inner codec, shown
for bool), and DATETIME round-trips truncated to seconds; but for 32-bit and
64-bit integers the round-trip always fails, because `to_param` emits a JSON
number while integer parsing accepts only input arriving as a JSON string —
parsing the decimal string of an in-range i64 does succeed. -/
theorem c4_codec_roundtrip_amended :
    (∀ b : Bool, bool_from_param (bool_to_param b) = .ok b) ∧
    (∀ str : String, string_from_param (string_to_param str) = .ok str) ∧
    (∀ x : F64, x.isFinite = true → (f64_to_param x).bind f64_from_param = .ok x) ∧
    (∀ d : DT, d.Valid → dt_from_param (dt_to_param d) = .ok {d with nano := 0}) ∧
    (∀ t : FieldType, fromParamTy (.tOpt t) Json.null = .ok .vNone) ∧
    (hostToParam .vNone = Json.null) ∧
    (∀ b : Bool, fromParamTy (.tOpt .tBool) (hostToParam (.vSome (.vBool b)))
      = .ok (.vSome (.vBool b))) ∧
    (∀ n : Int, (i64_from_param (i64_to_param n)).isOk = false) ∧
    (∀ n : Int, (i32_from_param (i32_to_param n)).isOk = false) ∧
    (∀ n : Int, -(2 ^ 63 : Int) ≤ n → n ≤ 2 ^ 63 - 1 →
      i64_from_param (Json.str (intToString n)) = .ok n) := by
  refine ⟨?_, ?_, ?_, ?_, ?_, rfl, ?_, ?_, ?_, ?_⟩
  · intro b
    cases b <;> decide
  · intro str
    rfl
  · intro x hfin
    unfold f64_to_param
    rw [if_pos hfin]
    show f64_from_param (.num (.float x.bits)) = .ok x
    show RResult.ok (⟨x.bits⟩ : F64) = .ok x
    cases x
    rfl
  · exact dt_roundtrip
  · intro t
    rfl
  · intro b
    cases b <;> decide
  · intro n
    rfl
  · intro n
    rfl
  · intro n h1 h2
    show parseSignedDec (2 ^ 63 - 1) (intToString n) = .ok n
    exact parseSignedDec_intToString (2 ^ 63 - 1) n (by push_cast; omega) (by push_cast; omega)

/-- C4 witness: the amended round-trip at concrete inputs — the double 0.0,
a concrete datetime with sub-second part 123 (truncated on return), and the
in-range integer 9999 parsed from its decimal string. -/
theorem c4_witness :
    ((⟨0⟩ : F64).isFinite = true ∧
      (f64_to_param ⟨0⟩).bind f64_from_param = .ok (⟨0⟩ : F64)) ∧
    (DT.Valid ⟨2023, 1, 15, 10, 30, 5, 123⟩ ∧
      dt_from_param (dt_to_param ⟨2023, 1, 15, 10, 30, 5, 123⟩)
        = .ok ⟨2023, 1, 15, 10, 30, 5, 0⟩) ∧
    (-(2 ^ 63 : Int) ≤ 9999 ∧ (9999 : Int) ≤ 2 ^ 63 - 1 ∧
      i64_from_param (Json.str (intToString 9999)) = .ok 9999) := by
  have h := c4_codec_roundtrip_amended
  refine ⟨⟨by decide, h.2.2.1 ⟨0⟩ (by decide)⟩,
    ⟨by decide, h.2.2.2.1 ⟨2023, 1, 15, 10, 30, 5, 123⟩ (by decide)⟩,
    by decide, by decide,
    h.2.2.2.2.2.2.2.2.2 9999 (by decide) (by decide)⟩
